import Mathlib

/-!
Verification development for the migration core of ImpDAR
(`src/impdar/lib/migration_routines.py`).

The Python source is shallowly embedded below.  Machine floats are
idealised as exact arithmetic: functions that only use field and order
operations are embedded generically over a `LinearOrderedField K`
(instantiated at `ℚ` where concrete evaluation is wanted, and at `ℝ`
inside the engines), while the migration engines themselves, which use
`sqrt`, `cos`, `sin` and discrete Fourier transforms, are embedded over
`ℝ`/`ℂ`.  Numpy arrays become explicit-size structures or index
functions; in-place mutation becomes explicit state passing; Python
exceptions become `Except` values tagged by `MigError`.
-/

open scoped BigOperators

/-- A dense 2-D real matrix in the numpy sense: explicit row/column counts
plus an entry function (entries outside the advertised shape are junk and
never consulted by the embedded code). -/
structure RMatrix (K : Type) where
  rows : ℕ
  cols : ℕ
  entry : ℕ → ℕ → K

/-- The ImpDAR data object fields consumed by the migration routines:
`data` (the sample matrix), `snum`/`tnum` (expected sample/trace counts),
`dt` (sample interval, s), `travel_time` (per-sample two-way time, µs),
`trace_int` (per-trace spacing, m), `dist` (per-trace position, m).
The sequences are index functions; only indices below `snum` resp. `tnum`
are ever consulted. -/
structure Radargram (K : Type) where
  snum : ℕ
  tnum : ℕ
  data : RMatrix K
  dt : K
  travel_time : ℕ → K
  trace_int : ℕ → K
  dist : ℕ → K

/-- Tagged failure values of a migration call.  The deliberate
`ValueError`s of the source map to `shapeMismatch`, `outOfRange`,
`distanceUnset` and `velProfileLength`; `outOfRange` also covers the
bounds error scipy's `interp1d` itself raises when asked to evaluate
outside its interpolation range (the spec's `OutOfRange` is defined by
that very condition).  `indexOutOfBounds` and `uninitializedVmig` model
the untagged crashes (`IndexError` when reading column 1 of a
one-column array, `UnboundLocalError` when `vmig` is never assigned).
`invalidVelocitySpec` is the tag named by the spec's error taxonomy; the
source never produces it. -/
inductive MigError where
  | shapeMismatch
  | invalidVelocitySpec
  | outOfRange
  | distanceUnset
  | velProfileLength
  | indexOutOfBounds
  | uninitializedVmig
deriving DecidableEq, Repr

/-- The interpolated migration-velocity field returned by
`getVelocityProfile`: a scalar, a per-sample vector (with its length), or
a per-sample-per-trace matrix (with its shape). -/
inductive VMig (K : Type) where
  | const (v : K)
  | layered (n : ℕ) (v : ℕ → K)
  | gridded (n m : ℕ) (v : ℕ → ℕ → K)

/-- The user-supplied velocity argument of `migrationPhaseShift`: either a
scalar or a 2-D numpy array (velocities in column 0, depths in column 1,
optionally lateral positions in column 2). -/
inductive VelocityInput (K : Type) where
  | const (v : K)
  | array (m : RMatrix K)

/-! ### numpy helpers -/

/-- Mean of the first `n` entries of a sequence (`np.mean`). -/
def meanR {K : Type} [Field K] (n : ℕ) (f : ℕ → K) : K :=
  (∑ i in Finset.range n, f i) / n

/-- Maximum of the first `n` entries (`np.max` / `np.nanmax`; junk `f 0`
for `n = 0`). -/
def npMaxR {K : Type} [LinearOrder K] (n : ℕ) (f : ℕ → K) : K :=
  (List.range n).foldl (fun m k => max m (f k)) (f 0)

/-- Minimum of the first `n` entries (`np.min` / `np.nanmin`). -/
def npMinR {K : Type} [LinearOrder K] (n : ℕ) (f : ℕ → K) : K :=
  (List.range n).foldl (fun m k => min m (f k)) (f 0)

/-- First index of the minimum among the first `n` entries (`np.argmin`
returns the first occurrence). -/
def npArgminR {K : Type} [LinearOrder K] (n : ℕ) (f : ℕ → K) : ℕ :=
  (List.range n).foldl (fun best k => if f k < f best then k else best) 0

/-- `np.gradient(vals, coords)` for a length-`n` 1-D array: second-order
centred differences on a possibly nonuniform grid in the interior,
first-order one-sided differences at the two edges. -/
def npGradient {K : Type} [Field K] (coords vals : ℕ → K) (n i : ℕ) : K :=
  if n < 2 then 0
  else if i = 0 then (vals 1 - vals 0) / (coords 1 - coords 0)
  else if i = n - 1 then (vals (n - 1) - vals (n - 2)) / (coords (n - 1) - coords (n - 2))
  else
    ((coords i - coords (i - 1)) ^ 2 * vals (i + 1) +
        ((coords (i + 1) - coords i) ^ 2 - (coords i - coords (i - 1)) ^ 2) * vals i -
        (coords (i + 1) - coords i) ^ 2 * vals (i - 1)) /
      ((coords i - coords (i - 1)) * (coords (i + 1) - coords i) *
        ((coords (i + 1) - coords i) + (coords i - coords (i - 1))))

/-- The integer numerator of `np.fft.fftfreq(n)[k]`: `k` for the first
`n - n/2` slots, `k - n` afterwards (DC, positive, then negative
frequencies). -/
def fftfreqZ (n k : ℕ) : ℤ :=
  if k < n - n / 2 then (k : ℤ) else (k : ℤ) - n

/-- `np.fft.fftfreq(n, d)[k]` as an exact value. -/
def fftfreqVal {K : Type} [Field K] (n : ℕ) (d : K) (k : ℕ) : K :=
  (fftfreqZ n k : ℤ) / (n * d)

/-- `ceil(log2 n)` for `n ≥ 1`, computed by a fold so that it evaluates
by kernel reduction (`n` iterations always suffice since
`ceil(log2 n) ≤ n`). -/
def ceilLog2 (n : ℕ) : ℕ :=
  (List.range n).foldl (fun acc _ => if 2 ^ acc < n then acc + 1 else acc) 0

/-- `2**ceil(log2 n)`, the FFT padding size used by the source. -/
def nextPow2 (n : ℕ) : ℕ := 2 ^ ceilLog2 n

/-! ### The sparse banded stencil (`Sp_Matr`) -/

/-- Embedding of `Sp_Matr(N, diag, k1, k2, k3=0, k4=0, nx=0)`.

The source performs, in order: `setdiag(diag, k=0)`, `setdiag(k1, k=1)`,
`setdiag(k2, k=-1)`, `setdiag(k3, k=nx)`, `setdiag(k4, k=-nx)` (later
writes override earlier ones — in particular, with the default `nx = 0`
the last two calls rewrite the main diagonal with `k3` and then `k4`),
then overwrites row `0` with `[1, 0, …, 0]` and row `N-1` with all ones
(`A[-1,-1] = 1; A[-1,:-1] = 1`). -/
def Sp_Matr {K : Type} [Ring K] (N : ℕ) (diag k1 k2 k3 k4 : K) (nx : ℕ) :
    ℕ → ℕ → K := fun i j =>
  if i = N - 1 then 1
  else if i = 0 then (if j = 0 then 1 else 0)
  else if i = j + nx then k4
  else if j = i + nx then k3
  else if i = j + 1 then k2
  else if j = i + 1 then k1
  else if i = j then diag
  else 0

/-- Matrix–vector product over the first `n` coordinates (the only
operation the source ever applies to the sparse stencil). -/
def matVec {K : Type} [Semiring K] (A : ℕ → ℕ → K) (n : ℕ) (v : ℕ → K) (i : ℕ) : K :=
  ∑ j in Finset.range n, A i j * v j

/-! ### scipy `interp1d` (kind `linear`, `assume_sorted=False`,
`bounds_error=True`) -/

/-- Sort a list of `(x, y)` pairs by `x` (scipy sorts unsorted abscissae
internally; `insertionSort` is a stable model of that). -/
def sortPairs {K : Type} [LinearOrderedField K] (l : List (K × K)) : List (K × K) :=
  l.insertionSort (fun p q => p.1 ≤ q.1)

/-- Piecewise-linear interpolation through a sorted list of knots,
extended linearly from the first/last segment outside the knot range
(out-of-range queries are rejected before this function is consulted, so
the extension is never observed through `interp1dEvalVec`). -/
def interpPtsVal {K : Type} [LinearOrderedField K] : List (K × K) → K → K
  | [], _ => 0
  | [p], _ => p.2
  | [p, p'], q => p.2 + (q - p.1) * (p'.2 - p.2) / (p'.1 - p.1)
  | p :: p' :: p'' :: rest, q =>
      if q ≤ p'.1 then p.2 + (q - p.1) * (p'.2 - p.2) / (p'.1 - p.1)
      else interpPtsVal (p' :: p'' :: rest) q

/-- Smallest abscissa of a sorted knot list. -/
def interpLo {K : Type} [LinearOrderedField K] (pts : List (K × K)) : K :=
  (pts.head?.getD (0, 0)).1

/-- Largest abscissa of a sorted knot list. -/
def interpHi {K : Type} [LinearOrderedField K] (pts : List (K × K)) : K :=
  (pts.getLast?.getD (0, 0)).1

/-- Evaluate an `interp1d` interpolant at the first `n` entries of `qs`.
With the default `bounds_error=True`, scipy raises a `ValueError` as soon
as any query lies outside the interpolation range; that failure is the
spec's `OutOfRange` condition (requested time outside the interpolable
range), so it carries the `outOfRange` tag here. -/
def interp1dEvalVec {K : Type} [LinearOrderedField K] (pts : List (K × K)) (n : ℕ)
    (qs : ℕ → K) : Except MigError (ℕ → K) :=
  if ∃ i ∈ Finset.range n, qs i < interpLo pts ∨ interpHi pts < qs i
  then .error .outOfRange
  else .ok fun i => interpPtsVal pts (qs i)

/-! ### `getVelocityProfile` -/

/-- `twtt = dat.travel_time / 1e6` (µs → s). -/
def twttF {K : Type} [LinearOrderedField K] (rg : Radargram K) : ℕ → K :=
  fun i => rg.travel_time i / (10 : K) ^ 6

/-- The depth array of the layered branch:
`zs = np.max(vel_v)/2 * twtt` with `zs[0]` overwritten to
`twtt[0] * vel_v[0] / 2`. -/
def layeredZs {K : Type} [LinearOrderedField K] (rg : Radargram K) (m : RMatrix K) :
    ℕ → K := fun i =>
  if i = 0 then twttF rg 0 * m.entry 0 0 / 2
  else npMaxR m.rows (fun k => m.entry k 0) / 2 * twttF rg i

/-- The `(velocity, depth)` rows of the input table. -/
def layeredBase {K : Type} (m : RMatrix K) : List (K × K) :=
  (List.range m.rows).map fun i => (m.entry i 0, m.entry i 1)

/-- First pair with minimal second component (`arr[np.argmin(z)]`:
first occurrence of the minimum). -/
def pickMinBySnd {K : Type} [LinearOrderedField K] : List (K × K) → K × K
  | [] => (0, 0)
  | p :: rest => rest.foldl (fun best q => if q.2 < best.2 then q else best) p

/-- First pair with maximal second component (`arr[np.argmax(z)]`). -/
def pickMaxBySnd {K : Type} [LinearOrderedField K] : List (K × K) → K × K
  | [] => (0, 0)
  | p :: rest => rest.foldl (fun best q => if best.2 < q.2 then q else best) p

/-- The layered table after the two boundary pushes: if the shallowest
input depth is below the shallowest `zs`, a row
`(vel_v[argmin vel_z], min zs)` is prepended; if the deepest input depth
is above the deepest `zs`, a row `(vel_v[argmax vel_z], max zs)` is
appended (the argmax is taken on the possibly-prepended arrays, exactly
as in the source). -/
def layeredPairs {K : Type} [LinearOrderedField K] (rg : Radargram K) (m : RMatrix K) :
    List (K × K) :=
  let base := layeredBase m
  let l1 := if npMinR rg.snum (layeredZs rg m) < m.entry 0 1
            then ((pickMinBySnd base).1, npMinR rg.snum (layeredZs rg m)) :: base
            else base
  if m.entry (m.rows - 1) 1 < npMaxR rg.snum (layeredZs rg m)
  then l1 ++ [((pickMaxBySnd l1).1, npMaxR rg.snum (layeredZs rg m))]
  else l1

/-- Knots of `tinterp = interp1d(vel_z, vel_t)` with
`vel_t = 2 * vel_z / vel_v`, sorted by depth. -/
def layeredPtsZT {K : Type} [LinearOrderedField K] (rg : Radargram K) (m : RMatrix K) :
    List (K × K) :=
  sortPairs ((layeredPairs rg m).map fun p => (p.2, 2 * p.2 / p.1))

/-- `tofz = tinterp(zs)` as a total function (coincides with the value the
pipeline computes whenever the bounds check passes). -/
def layeredTofz {K : Type} [LinearOrderedField K] (rg : Radargram K) (m : RMatrix K) :
    ℕ → K := fun i => interpPtsVal (layeredPtsZT rg m) (layeredZs rg m i)

/-- The layered (v(z)) branch of `getVelocityProfile`. -/
def layeredBranch {K : Type} [LinearOrderedField K] (rg : Radargram K) (m : RMatrix K) :
    Except MigError (VMig K) :=
  match interp1dEvalVec (layeredPtsZT rg m) rg.snum (layeredZs rg m) with
  | .error e => .error e
  | .ok tofz =>
    match interp1dEvalVec (sortPairs ((List.range rg.snum).map fun i => (tofz i, layeredZs rg m i)))
            rg.snum (twttF rg) with
    | .error e => .error e
    | .ok zoft =>
      if twttF rg (rg.snum - 1) > tofz (rg.snum - 1) then .error .outOfRange
      else .ok (.layered rg.snum fun i => 2 * npGradient (twttF rg) zoft rg.snum i)

/-- The depth array of the gridded branch:
`np.linspace(min(vel_v)*twtt[0], max(vel_v)*twtt[-1], snum) / 2`. -/
def griddedZs {K : Type} [LinearOrderedField K] (rg : Radargram K) (m : RMatrix K) :
    ℕ → K := fun i =>
  (npMinR m.rows (fun k => m.entry k 0) * twttF rg 0
     + i * (npMaxR m.rows (fun k => m.entry k 0) * twttF rg (rg.snum - 1)
             - npMinR m.rows (fun k => m.entry k 0) * twttF rg 0) / ((rg.snum : K) - 1)) / 2

/-- Index of the input point nearest (Euclidean, first occurrence) to mesh
node `(zs[a], dist[b])`; models `griddata(..., method='nearest')`. -/
def griddedNearest {K : Type} [LinearOrderedField K] (rg : Radargram K) (m : RMatrix K)
    (a b : ℕ) : ℕ :=
  (List.range m.rows).foldl (fun best k =>
    if (m.entry k 2 - rg.dist b) ^ 2 + (m.entry k 1 - griddedZs rg m a) ^ 2
       < (m.entry best 2 - rg.dist b) ^ 2 + (m.entry best 1 - griddedZs rg m a) ^ 2
    then k else best) 0

/-- The nearest-neighbour velocity mesh `VS[a, b]`. -/
def griddedVS {K : Type} [LinearOrderedField K] (rg : Radargram K) (m : RMatrix K)
    (a b : ℕ) : K :=
  m.entry (griddedNearest rg m a b) 0

/-- `np.trapz(y[:j], x[:j])`: trapezoid rule over the first `j` entries
(note the source's prefix slice excludes index `j` itself). -/
def trapzPrefix {K : Type} [Field K] (y x : ℕ → K) (j : ℕ) : K :=
  ∑ k in Finset.range (j - 1), (y k + y (k + 1)) / 2 * (x (k + 1) - x k)

/-- One trace column of the gridded branch: integrate slowness to get
`vel_t`, interpolate `t(z)` onto `zs`, interpolate `z(t)` onto `twtt`,
reject if the record extends past the model, and differentiate. -/
def griddedColBranch {K : Type} [LinearOrderedField K] (rg : Radargram K) (m : RMatrix K)
    (i : ℕ) : Except MigError (ℕ → K) :=
  let zs := griddedZs rg m
  let velt := fun j => 2 * trapzPrefix (fun a => 1 / griddedVS rg m a i) zs j
  match interp1dEvalVec (sortPairs ((List.range rg.snum).map fun a => (zs a, velt a)))
          rg.snum zs with
  | .error e => .error e
  | .ok tofz =>
    match interp1dEvalVec (sortPairs ((List.range rg.snum).map fun a => (tofz a, zs a)))
            rg.snum (twttF rg) with
    | .error e => .error e
    | .ok zoft =>
      if twttF rg (rg.snum - 1) > tofz (rg.snum - 1) then .error .outOfRange
      else .ok fun a => 2 * npGradient (twttF rg) zoft rg.snum a

/-- Assemble the gridded velocity matrix column by column (ascending trace
index, stopping at the first failing column, as the source's loop does). -/
def griddedCols {K : Type} [LinearOrderedField K] (rg : Radargram K) (m : RMatrix K) :
    ℕ → Except MigError (ℕ → ℕ → K)
  | 0 => .ok fun _ _ => 0
  | i + 1 =>
    match griddedCols rg m i with
    | .error e => .error e
    | .ok acc =>
      match griddedColBranch rg m i with
      | .error e => .error e
      | .ok col => .ok fun a b => if b = i then col a else acc a b

/-- The gridded (v(x,z)) branch of `getVelocityProfile`. -/
def griddedBranch {K : Type} [LinearOrderedField K] (rg : Radargram K) (m : RMatrix K) :
    Except MigError (VMig K) :=
  if ∀ b ∈ Finset.range rg.tnum, rg.dist b = 0 then .error .distanceUnset
  else (griddedCols rg m rg.tnum).map fun f => VMig.gridded rg.snum rg.tnum f

/-- Embedding of `getVelocityProfile(dat, vels_in)`.

A scalar is returned unchanged.  For an array the source first unpacks
`nlay, dimension = np.shape(vels_in)` and reads columns 0 and 1 — an
array with fewer than two columns dies there with an untagged
`IndexError` (`indexOutOfBounds`).  It then dispatches on
`nlay > 1 and dimension == 2` (layered) or `nlay > 1 and dimension == 3`
(gridded); any other shape falls through both branches and reaches
`return vmig` with `vmig` never assigned, an untagged
`UnboundLocalError` (`uninitializedVmig`).  No shape problem is ever
reported through a dedicated tagged error, and depth monotonicity is
never checked (`interp1d` sorts its abscissae). -/
def getVelocityProfile {K : Type} [LinearOrderedField K] (rg : Radargram K)
    (vels_in : VelocityInput K) : Except MigError (VMig K) :=
  match vels_in with
  | .const v => .ok (.const v)
  | .array m =>
    if m.cols < 2 then .error .indexOutOfBounds
    else if 1 < m.rows ∧ m.cols = 2 then layeredBranch rg m
    else if 1 < m.rows ∧ m.cols = 3 then griddedBranch rg m
    else .error .uninitializedVmig

/-! ### Complex helpers and discrete Fourier transforms -/

/-- `np.sqrt` applied to a complex number with zero imaginary part (the
only complex square roots the source takes): real branch for nonnegative
arguments, `i·sqrt(-x)` for negative ones. -/
noncomputable def csqrtReal (x : ℝ) : ℂ :=
  if 0 ≤ x then (Real.sqrt x : ℂ) else Complex.I * (Real.sqrt (-x) : ℂ)

/-- 1-D discrete Fourier transform of length `n` (`np.fft.fft`). -/
noncomputable def dft (n : ℕ) (f : ℕ → ℂ) (k : ℕ) : ℂ :=
  ∑ j in Finset.range n,
    f j * Complex.exp (-2 * Real.pi * Complex.I * k * j / n)

/-- 1-D inverse discrete Fourier transform (`np.fft.ifft`). -/
noncomputable def idft (n : ℕ) (f : ℕ → ℂ) (k : ℕ) : ℂ :=
  (∑ j in Finset.range n,
    f j * Complex.exp (2 * Real.pi * Complex.I * k * j / n)) / n

/-- 2-D discrete Fourier transform (`np.fft.fft2` with shape `(nr, nc)`). -/
noncomputable def dft2 (nr nc : ℕ) (f : ℕ → ℕ → ℂ) (p q : ℕ) : ℂ :=
  ∑ i in Finset.range nr, ∑ j in Finset.range nc,
    f i j * Complex.exp (-2 * Real.pi * Complex.I *
      ((p : ℂ) * i / nr + (q : ℂ) * j / nc))

/-- 2-D inverse discrete Fourier transform (`np.fft.ifft2`). -/
noncomputable def idft2 (nr nc : ℕ) (f : ℕ → ℕ → ℂ) (p q : ℕ) : ℂ :=
  (∑ i in Finset.range nr, ∑ j in Finset.range nc,
    f i j * Complex.exp (2 * Real.pi * Complex.I *
      ((p : ℂ) * i / nr + (q : ℂ) * j / nc))) / ((nr : ℂ) * nc)

/-- Zero-pad (or crop) a real matrix into the complex plane, as
`np.fft.fft2(data, (nt, nx))` does before transforming. -/
def padData (m : RMatrix ℝ) : ℕ → ℕ → ℂ := fun i j =>
  if i < m.rows ∧ j < m.cols then (m.entry i j : ℂ) else 0

/-! ### `migrationKirchhoff` -/

/-- Radial distance from apex `(ti, xi)` to trace `k`:
`rs = sqrt((dist - x)^2 + z^2)` with `z = vel * t / 2`. -/
noncomputable def kirchRs (rg : Radargram ℝ) (vel : ℝ) (ti xi k : ℕ) : ℝ :=
  Real.sqrt ((rg.dist k - rg.dist xi) ^ 2 + (vel * twttF rg ti / 2) ^ 2)

/-- Obliquity factor `costheta = z / rs`. -/
noncomputable def kirchCos (rg : Radargram ℝ) (vel : ℝ) (ti xi k : ℕ) : ℝ :=
  (vel * twttF rg ti / 2) / kirchRs rg vel ti xi k

/-- `Didx[k] = argmin |travel_time/1e6 - 2 rs / vel|` (first minimum, as
`np.argmin`). -/
noncomputable def kirchDidx (rg : Radargram ℝ) (vel : ℝ) (ti xi k : ℕ) : ℕ :=
  npArgminR rg.snum (fun s => |twttF rg s - 2 * kirchRs rg vel ti xi k / vel|)

/-- `gradD = np.gradient(data, travel_time/1e6, axis=0)`. -/
noncomputable def kirchGradD (rg : Radargram ℝ) (s k : ℕ) : ℝ :=
  npGradient (twttF rg) (fun u => rg.data.entry u k) rg.snum s

/-- `max(travel_time / 1e6)`. -/
noncomputable def kirchTTmax (rg : Radargram ℝ) : ℝ :=
  npMaxR rg.snum (twttF rg)

/-- One output pixel of Kirchhoff migration: the far-field sum of
`gradD[Didx_k, k] * costheta_k / vel` (hyperbola points beyond the record
zeroed) plus, when `nearfield` is set, `D[Didx_k, k] * costheta_k / rs^2`,
all scaled by `1/(2 pi)`. -/
noncomputable def kirchhoffData (rg : Radargram ℝ) (vel : ℝ) (nearfield : Bool)
    (ti xi : ℕ) : ℝ :=
  1 / (2 * Real.pi) *
    ((∑ k in Finset.range rg.tnum,
        (if kirchTTmax rg < 2 * kirchRs rg vel ti xi k / vel then 0
         else kirchGradD rg (kirchDidx rg vel ti xi k) k) *
          kirchCos rg vel ti xi k / vel) +
      if nearfield then
        ∑ k in Finset.range rg.tnum,
          (if kirchTTmax rg < 2 * kirchRs rg vel ti xi k / vel then 0
           else rg.data.entry (kirchDidx rg vel ti xi k) k) *
            kirchCos rg vel ti xi k / kirchRs rg vel ti xi k ^ 2
      else 0)

/-- Embedding of `migrationKirchhoff(dat, vel, nearfield)`: shape guard
(`ValueError` → `shapeMismatch`) and then the pixel loop; the result is
the input object with only `data` replaced. -/
noncomputable def migrationKirchhoff (rg : Radargram ℝ) (vel : ℝ) (nearfield : Bool) :
    Except MigError (Radargram ℝ) :=
  if rg.data.cols ≠ rg.tnum ∨ rg.data.rows ≠ rg.snum then .error .shapeMismatch
  else .ok { rg with
    data := ⟨rg.data.rows, rg.data.cols,
             fun ti xi => kirchhoffData rg vel nearfield ti xi⟩ }

/-! ### `migrationStolt` -/

/-- FFT padding along the time axis, `nt = 2^ceil(log2 snum)`. -/
def stoltNt (rg : Radargram ℝ) : ℕ := nextPow2 rg.snum

/-- FFT padding along the trace axis, `nx = 2^ceil(log2 tnum)`. -/
def stoltNx (rg : Radargram ℝ) : ℕ := nextPow2 rg.tnum

/-- Angular temporal frequencies `ws = 2 pi fftfreq(nt, dt)`. -/
noncomputable def stoltWs (rg : Radargram ℝ) : ℕ → ℝ :=
  fun k => 2 * Real.pi * fftfreqVal (stoltNt rg) rg.dt k

/-- Horizontal wavenumbers `kx = 2 pi fftfreq(nx, mean(trace_int))`. -/
noncomputable def stoltKx (rg : Radargram ℝ) : ℕ → ℝ :=
  fun k => 2 * Real.pi * fftfreqVal (stoltNx rg) (meanR rg.tnum rg.trace_int) k

/-- `FK = np.fft.fft2(data, (nt, nx))`. -/
noncomputable def stoltFK (rg : Radargram ℝ) : ℕ → ℕ → ℂ :=
  fun p q => dft2 (stoltNt rg) (stoltNx rg) (padData rg.data) p q

/-- Axis values paired with their original indices, sorted ascending
(scipy's `interp2d` sorts unsorted axes and rearranges `z` accordingly). -/
noncomputable def axisSorted (n : ℕ) (g : ℕ → ℝ) : List (ℝ × ℕ) :=
  ((List.range n).map fun i => (g i, i)).insertionSort (fun p q => p.1 ≤ q.1)

/-- `a`-th smallest axis value. -/
noncomputable def axisVal (n : ℕ) (g : ℕ → ℝ) (a : ℕ) : ℝ :=
  ((axisSorted n g).getD a (0, 0)).1

/-- Original index of the `a`-th smallest axis value. -/
noncomputable def axisIdx (n : ℕ) (g : ℕ → ℝ) (a : ℕ) : ℕ :=
  ((axisSorted n g).getD a (0, 0)).2

/-- Index (into sorted order, capped at `n - 2`) of the interpolation cell
containing `q`: the last sorted knot `≤ q`, used with linear continuation
outside the knot range. -/
noncomputable def segIdx (n : ℕ) (g : ℕ → ℝ) (q : ℝ) : ℕ :=
  (List.range (n - 1)).foldl (fun acc j => if axisVal n g j ≤ q then j else acc) 0

/-- Model of `scipy.interpolate.interp2d(x, y, z)(qx, qy)` with
`kind='linear'`: piecewise-bilinear interpolation on the sorted grid,
extended linearly from the boundary cell outside the domain (the spec
fixes bilinear interpolation as the intended semantics of this external
call; its weights are independent of `z`). -/
noncomputable def interp2at (nx : ℕ) (xg : ℕ → ℝ) (ny : ℕ) (yg : ℕ → ℝ)
    (z : ℕ → ℕ → ℝ) (qx qy : ℝ) : ℝ :=
  let j := segIdx nx xg qx
  let i := segIdx ny yg qy
  let tx := (qx - axisVal nx xg j) / (axisVal nx xg (j + 1) - axisVal nx xg j)
  let ty := (qy - axisVal ny yg i) / (axisVal ny yg (i + 1) - axisVal ny yg i)
  let zz := fun a b => z (axisIdx ny yg a) (axisIdx nx xg b)
  (1 - ty) * ((1 - tx) * zz i j + tx * zz i (j + 1)) +
    ty * ((1 - tx) * zz (i + 1) j + tx * zz (i + 1) (j + 1))

/-- The interpolated wavenumber–wavenumber image
`KK[zj, xi] = interp_real(kx_i, ws') + i interp_imag(kx_i, ws')` with
`ws' = vel/2 * sqrt(kz^2 + kx^2)`, `kz = 2 ws[zj] / vel`. -/
noncomputable def stoltKK (rg : Radargram ℝ) (vel : ℝ) : ℕ → ℕ → ℂ := fun zj xi =>
  let wsj := vel / 2 * Real.sqrt ((stoltWs rg zj * 2 / vel) ^ 2 + stoltKx rg xi ^ 2)
  ((interp2at (stoltNx rg) (stoltKx rg) (stoltNt rg) (stoltWs rg)
      (fun p q => (stoltFK rg p q).re) (stoltKx rg xi) wsj : ℝ) : ℂ) +
    Complex.I * ((interp2at (stoltNx rg) (stoltKx rg) (stoltNt rg) (stoltWs rg)
      (fun p q => (stoltFK rg p q).im) (stoltKx rg xi) wsj : ℝ) : ℂ)

/-- Obliquity scaling `KK * kz / sqrt(kx^2 + kz^2)` followed by forcing
the DC component `KK[0,0] = 0`. -/
noncomputable def stoltScaled (rg : Radargram ℝ) (vel : ℝ) : ℕ → ℕ → ℂ := fun zj xi =>
  if zj = 0 ∧ xi = 0 then 0
  else stoltKK rg vel zj xi *
    (((stoltWs rg zj * 2 / vel) /
        Real.sqrt (stoltKx rg xi ^ 2 + (stoltWs rg zj * 2 / vel) ^ 2) : ℝ) : ℂ)

/-- The migrated Stolt image: real part of the 2-D inverse FFT (cropping
to `(snum, tnum)` is done by the shape of the result matrix). -/
noncomputable def stoltData (rg : Radargram ℝ) (vel : ℝ) : ℕ → ℕ → ℝ :=
  fun i j => (idft2 (stoltNt rg) (stoltNx rg) (stoltScaled rg vel) i j).re

/-- Embedding of `migrationStolt(dat, vel)`. -/
noncomputable def migrationStolt (rg : Radargram ℝ) (vel : ℝ) :
    Except MigError (Radargram ℝ) :=
  if rg.data.cols ≠ rg.tnum ∨ rg.data.rows ≠ rg.snum then .error .shapeMismatch
  else .ok { rg with
    data := ⟨rg.snum, rg.tnum, fun i j => stoltData rg vel i j⟩ }

/-! ### `phaseShift` and `migrationPhaseShift`

The variable-velocity branch mutates `FK` row by row, accumulates into
`TK` and carries a single `FFX_last` variable that is reassigned on every
inner (frequency) iteration; the three together form the loop state. -/

/-- Mutable state of the variable-velocity loops of `phaseShift`. -/
structure PSState where
  FK : ℕ → ℕ → ℂ
  TK : ℕ → ℕ → ℂ
  FFXlast : ℕ → ℂ

/-- Loop state on entry: the freshly transformed `FK`, `TK = 0`, and the
scalar initialisation `FFX_last = 0.` (never consulted before its first
reassignment, since the diffraction call is skipped at `itau = 0`). -/
def psVarState0 (FK : ℕ → ℕ → ℂ) : PSState :=
  ⟨FK, fun _ _ => 0, fun _ => 0⟩

/-- `w = ws[iw]`, with `w == 0` replaced by `1e-10 / dt`. -/
noncomputable def psW (rg : Radargram ℝ) (ws : ℕ → ℝ) (iw : ℕ) : ℝ :=
  if ws iw = 0 then ((10 : ℝ) ^ 10)⁻¹ / rg.dt else ws iw

/-- Background velocity at depth step `itau`: the scalar itself (constant),
`vmig[itau]` (layered), or `np.min(vmig[itau])` (gridded). -/
noncomputable def vbgOf (vmig : VMig ℝ) (itau : ℕ) : ℝ :=
  match vmig with
  | .const v => v
  | .layered _ v => v itau
  | .gridded _ mc v => npMinR mc (v itau)

/-- `coss = 1 - (0.5 vbg kx / w)^2` (built as a complex with zero
imaginary part in the source; numpy's `<=` on such values compares the
real parts, so it is carried as a real here). -/
noncomputable def psCoss (rg : Radargram ℝ) (vmig : VMig ℝ) (kx ws : ℕ → ℝ)
    (itau iw ik : ℕ) : ℝ :=
  1 - (1 / 2 * vbgOf vmig itau * kx ik / psW rg ws iw) ^ 2

/-- `phase = (-w dt sqrt(coss)).real` (complex square root, so the phase
vanishes on evanescent components). -/
noncomputable def psPhase (rg : Radargram ℝ) (vmig : VMig ℝ) (kx ws : ℕ → ℝ)
    (itau iw ik : ℕ) : ℝ :=
  (((-(psW rg ws iw * rg.dt) : ℝ) : ℂ) * csqrtReal (psCoss rg vmig kx ws itau iw ik)).re

/-- `cshift = conj(cos phase + i sin phase) = cos phase - i sin phase`. -/
noncomputable def psCshift (rg : Radargram ℝ) (vmig : VMig ℝ) (kx ws : ℕ → ℝ)
    (itau iw ik : ℕ) : ℂ :=
  ((Real.cos (psPhase rg vmig kx ws itau iw ik) : ℝ) : ℂ) -
    Complex.I * ((Real.sin (psPhase rg vmig kx ws itau iw ik) : ℝ) : ℂ)

/-- `FK[iw] * cshift`: the retardation (background phase shift) applied to
row `iw` of the current `FK`. -/
noncomputable def psRetardRow (rg : Radargram ℝ) (vmig : VMig ℝ) (kx ws : ℕ → ℝ)
    (itau iw : ℕ) (s : PSState) : ℕ → ℂ :=
  fun ik => s.FK iw ik * psCshift rg vmig kx ws itau iw ik

/-- Embedding of `fourierFiniteDiff(dat, vs, w, FFX, FFX_last, stencil,
alpha=0.5, beta=0.25)`:
`FFX_last + c1 (L FFX) + c2 (L FFX - L FFX_last)` with
`c1 = dt alpha vs^2 / (i 4 w dx^2)` and `c2 = -beta vs^2 / (4 w^2 dx^2)`. -/
noncomputable def fourierFiniteDiff (rg : Radargram ℝ) (vs : ℕ → ℝ) (w : ℝ)
    (FFX FFXlast : ℕ → ℂ) (stencil : ℕ → ℕ → ℂ) (alpha beta : ℝ) : ℕ → ℂ :=
  fun j =>
    let dx : ℝ := meanR rg.tnum rg.trace_int
    FFXlast j +
      ((rg.dt * alpha * vs j ^ 2 : ℝ) : ℂ) /
          (Complex.I * 4 * ((w : ℝ) : ℂ) * ((dx ^ 2 : ℝ) : ℂ)) *
        matVec stencil rg.tnum FFX j +
      ((-beta * vs j ^ 2 / (4 * w ^ 2 * dx ^ 2) : ℝ) : ℂ) *
        (matVec stencil rg.tnum FFX j - matVec stencil rg.tnum FFXlast j)

/-- The `FFX` value computed (and then remembered in `FFX_last`) by the
gridded block at step `(itau, iw)`: inverse FFT of the shifted row, the
thin-lens factor `cos(phase2) + i sin(phase2)` with
`phase2 = (1/vbg - 2/vfg) w dt`, and — from `itau ≥ 1` on — the
Fourier finite-difference diffraction update, whose `FFX_last` argument
is the value currently stored in the loop state.

Caution on fidelity: `vfg = vmig[itau] - min(vmig[itau])` is exactly
zero at its argmin trace in every gridded step, so the source's
`2./vfg` evaluates to `inf` there and `cos(phase2)` to NaN, which then
spreads through the row FFTs and the `TK` accumulation into the whole
output.  Lean's total division returns `0` for `2 / 0`, so this
embedding gives the thin-lens factor a finite junk value instead of the
NaN payload: the numeric values of the gridded branch are NOT faithful
to IEEE semantics past this point, and no theorem below relies on them
(the C7 analysis records the division by zero itself through `vbgOf`;
the C3/C4 theorems assert only control-flow and dataflow facts). -/
noncomputable def psFFXComputed (rg : Radargram ℝ) (vmig : VMig ℝ) (kx ws : ℕ → ℝ)
    (itau iw : ℕ) (s : PSState) : ℕ → ℂ :=
  match vmig with
  | .gridded _ mc v =>
    let w := psW rg ws iw
    let vbg := npMinR mc (v itau)
    let vfg := fun j => v itau j - vbg
    let FFX := fun j => idft rg.tnum (psRetardRow rg vmig kx ws itau iw s) j
    let FFX2 := fun j => FFX j *
      (((Real.cos ((1 / vbg - 2 / vfg j) * w * rg.dt) : ℝ) : ℂ) +
        Complex.I * ((Real.sin ((1 / vbg - 2 / vfg j) * w * rg.dt) : ℝ) : ℂ))
    if 0 < itau then
      fourierFiniteDiff rg vfg w FFX2 s.FFXlast
        (Sp_Matr rg.tnum (-2) 1 1 0 0 0) (1 / 2) (1 / 4)
    else FFX2
  | _ => s.FFXlast

/-- The row that is written back into `FK[iw]` before evanescent zeroing:
for a gridded velocity the forward FFT of the computed `FFX`, otherwise
just the retarded row. -/
noncomputable def psMidRow (rg : Radargram ℝ) (vmig : VMig ℝ) (kx ws : ℕ → ℝ)
    (itau iw : ℕ) (s : PSState) : ℕ → ℂ :=
  match vmig with
  | .gridded _ _ _ => fun ik => dft rg.tnum (psFFXComputed rg vmig kx ws itau iw s) ik
  | _ => psRetardRow rg vmig kx ws itau iw s

/-- The evanescent cutoff actually used by the source at output step
`itau`: `(tau / travel_time[-1] / 1e6)^2` with `tau = travel_time[itau] /
1e6` — i.e. the last travel time enters in microseconds and the `1e6`
sits inside the square. -/
noncomputable def evanThresh (rg : Radargram ℝ) (itau : ℕ) : ℝ :=
  (twttF rg itau / rg.travel_time (rg.snum - 1) / (10 : ℝ) ^ 6) ^ 2

/-- Row `iw` of `FK` after the zeroing `FK[iw, coss <= thresh] = 0`; this
is the row stored back into `FK` and accumulated into `TK[itau]`. -/
noncomputable def psZeroRow (rg : Radargram ℝ) (vmig : VMig ℝ) (kx ws : ℕ → ℝ)
    (itau iw : ℕ) (s : PSState) : ℕ → ℂ :=
  fun ik =>
    if psCoss rg vmig kx ws itau iw ik ≤ evanThresh rg itau then 0
    else psMidRow rg vmig kx ws itau iw s ik

/-- One inner iteration of the variable-velocity loops (body of the
`for iw` loop at output step `itau`). -/
noncomputable def psVarStep (rg : Radargram ℝ) (vmig : VMig ℝ) (kx ws : ℕ → ℝ)
    (itau iw : ℕ) (s : PSState) : PSState :=
  { FK := Function.update s.FK iw (psZeroRow rg vmig kx ws itau iw s)
    TK := fun t ik =>
      if t = itau then s.TK t ik + psZeroRow rg vmig kx ws itau iw s ik
      else s.TK t ik
    FFXlast :=
      match vmig with
      | .gridded _ _ _ => psFFXComputed rg vmig kx ws itau iw s
      | _ => s.FFXlast }

/-- All `nws` inner iterations at output step `itau`. -/
noncomputable def psVarInner (rg : Radargram ℝ) (vmig : VMig ℝ) (kx ws : ℕ → ℝ)
    (nws itau : ℕ) (s : PSState) : PSState :=
  (List.range nws).foldl (fun st iw => psVarStep rg vmig kx ws itau iw st) s

/-- The first `ntau` outer iterations of the variable-velocity branch. -/
noncomputable def psVarRun (rg : Radargram ℝ) (vmig : VMig ℝ) (kx ws : ℕ → ℝ)
    (nws ntau : ℕ) (s : PSState) : PSState :=
  (List.range ntau).foldl (fun st itau => psVarInner rg vmig kx ws nws itau st) s

/-- The loop state on entry to step `(itau, iw)` (all previous outer
steps complete, `iw` inner steps of the current one complete), starting
from `psVarState0 FK`. -/
noncomputable def psStateBefore (rg : Radargram ℝ) (vmig : VMig ℝ) (kx ws : ℕ → ℝ)
    (nws : ℕ) (FK : ℕ → ℕ → ℂ) (itau iw : ℕ) : PSState :=
  (List.range iw).foldl (fun st j => psVarStep rg vmig kx ws itau j st)
    (psVarRun rg vmig kx ws nws itau (psVarState0 FK))

/-- The `FFX_last` argument handed to the diffraction update at step
`(itau, iw)`. -/
noncomputable def psFFDArg (rg : Radargram ℝ) (vmig : VMig ℝ) (kx ws : ℕ → ℝ)
    (nws : ℕ) (FK : ℕ → ℕ → ℂ) (itau iw : ℕ) : ℕ → ℂ :=
  (psStateBefore rg vmig kx ws nws FK itau iw).FFXlast

/-- The `FFX` value computed by the gridded block at step `(itau, iw)`. -/
noncomputable def psFFXAt (rg : Radargram ℝ) (vmig : VMig ℝ) (kx ws : ℕ → ℝ)
    (nws : ℕ) (FK : ℕ → ℕ → ℂ) (itau iw : ℕ) : ℕ → ℂ :=
  psFFXComputed rg vmig kx ws itau iw (psStateBefore rg vmig kx ws nws FK itau iw)

/-- Phase of the constant-velocity shift,
`-w dt sqrt(1 - vkx2/w^2)` (real square root: only evaluated on the
non-evanescent set `vkx2 < w^2`). -/
noncomputable def psConstPhase (rg : Radargram ℝ) (v : ℝ) (kx ws : ℕ → ℝ)
    (iw ik : ℕ) : ℝ :=
  -(psW rg ws iw * rg.dt) * Real.sqrt (1 - (v * kx ik / 2) ^ 2 / psW rg ws iw ^ 2)

/-- `cp = conj(cos phase + i sin phase)`. -/
noncomputable def psConstCp (rg : Radargram ℝ) (v : ℝ) (kx ws : ℕ → ℝ)
    (iw ik : ℕ) : ℂ :=
  ((Real.cos (psConstPhase rg v kx ws iw ik) : ℝ) : ℂ) -
    Complex.I * ((Real.sin (psConstPhase rg v kx ws iw ik) : ℝ) : ℂ)

/-- Constant-velocity branch, one frequency: the copy `FFK = FK[iw, ik]`
is repeatedly multiplied by `cp` and accumulated into the masked cells of
successive `TK` rows. -/
noncomputable def psConstIwStep (rg : Radargram ℝ) (v : ℝ) (kx ws : ℕ → ℝ)
    (FK : ℕ → ℕ → ℂ) (iw : ℕ) (TK : ℕ → ℕ → ℂ) : ℕ → ℕ → ℂ :=
  ((List.range rg.snum).foldl
    (fun (s : (ℕ → ℂ) × (ℕ → ℕ → ℂ)) itau =>
      ((fun ik => s.1 ik * psConstCp rg v kx ws iw ik),
       fun t ik =>
         if t = itau ∧ (v * kx ik / 2) ^ 2 < psW rg ws iw ^ 2 then
           s.2 t ik + s.1 ik * psConstCp rg v kx ws iw ik
         else s.2 t ik))
    ((fun ik => FK iw ik), TK)).2

/-- Constant-velocity branch: all frequencies, starting from `TK = 0`. -/
noncomputable def psConstRun (rg : Radargram ℝ) (v : ℝ) (kx ws : ℕ → ℝ)
    (nws : ℕ) (FK : ℕ → ℕ → ℂ) : ℕ → ℕ → ℂ :=
  (List.range nws).foldl (fun TK iw => psConstIwStep rg v kx ws FK iw TK)
    (fun _ _ => 0)

/-- Embedding of `phaseShift(dat, vmig, vels_in, kx, ws, FK)`: dispatch on
the velocity kind, run the corresponding recursion, and normalise
(`TK /= snum`; the trailing cut `TK[:, :tnum]` is a no-op since `TK` is
built with `len(kx) = tnum` columns). -/
noncomputable def phaseShift (rg : Radargram ℝ) (vmig : VMig ℝ) (kx ws : ℕ → ℝ)
    (nws : ℕ) (FK : ℕ → ℕ → ℂ) : Except MigError (ℕ → ℕ → ℂ) :=
  match vmig with
  | .const v => .ok fun t ik => psConstRun rg v kx ws nws FK t ik / (rg.snum : ℂ)
  | .layered n v =>
    if n ≠ rg.snum then .error .velProfileLength
    else .ok fun t ik =>
      (psVarRun rg (.layered n v) kx ws nws rg.snum (psVarState0 FK)).TK t ik / (rg.snum : ℂ)
  | .gridded n mc v =>
    if n ≠ rg.snum then .error .velProfileLength
    else .ok fun t ik =>
      (psVarRun rg (.gridded n mc v) kx ws nws rg.snum (psVarState0 FK)).TK t ik / (rg.snum : ℂ)

/-- FFT padding of the phase-shift engine, `nt = 2^ceil(log2 snum)`. -/
def psNt (rg : Radargram ℝ) : ℕ := nextPow2 rg.snum

/-- `kx = 2 pi fftfreq(tnum, mean(trace_int))`. -/
noncomputable def psKx (rg : Radargram ℝ) : ℕ → ℝ :=
  fun ik => 2 * Real.pi * fftfreqVal rg.tnum (meanR rg.tnum rg.trace_int) ik

/-- `ws = 2 pi fftfreq(nt, dt)`. -/
noncomputable def psWsF (rg : Radargram ℝ) : ℕ → ℝ :=
  fun iw => 2 * Real.pi * fftfreqVal (psNt rg) rg.dt iw

/-- `FK = np.fft.fft2(data, (nt, tnum))`. -/
noncomputable def psFK0 (rg : Radargram ℝ) : ℕ → ℕ → ℂ :=
  fun p q => dft2 (psNt rg) rg.tnum (padData rg.data) p q

/-- Embedding of `migrationPhaseShift(dat, vel)` (no velocity file):
shape guard, velocity-profile construction, the phase-shift recursion,
and the final per-row inverse FFT whose real part becomes the new data
matrix; the result is the input object with only `data` replaced. -/
noncomputable def migrationPhaseShift (rg : Radargram ℝ) (vel : VelocityInput ℝ) :
    Except MigError (Radargram ℝ) :=
  if rg.data.cols ≠ rg.tnum ∨ rg.data.rows ≠ rg.snum then .error .shapeMismatch
  else
    match getVelocityProfile rg vel with
    | .error e => .error e
    | .ok vmig =>
      match phaseShift rg vmig (psKx rg) (psWsF rg) (psNt rg) (psFK0 rg) with
      | .error e => .error e
      | .ok TK => .ok { rg with
          data := ⟨rg.snum, rg.tnum,
                   fun i j => (idft rg.tnum (fun q => TK i q) j).re⟩ }

/-! ### Concrete instances used by witnesses and counterexamples -/

/-- A radargram whose `data` matrix really is the all-zero `S × T`
matrix (with the advertised shape, so the shape guard passes). -/
def zeroRg (S T : ℕ) (dt : ℝ) (tt tint dist : ℕ → ℝ) : Radargram ℝ :=
  ⟨S, T, ⟨S, T, fun _ _ => 0⟩, dt, tt, tint, dist⟩

/-- A radargram whose sample matrix is `1 × 1` although `snum = tnum = 2`. -/
noncomputable def rgBadShape : Radargram ℝ :=
  ⟨2, 2, ⟨1, 1, fun _ _ => 0⟩, 1, fun i => (i : ℝ) + 1, fun _ => 1, fun _ => 0⟩

/-- A tiny rational radargram (its fields are irrelevant to the
velocity-spec shape checks). -/
def rgQ1 : Radargram ℚ :=
  ⟨1, 1, ⟨1, 1, fun _ _ => 0⟩, 1, fun _ => 1, fun _ => 1, fun _ => 1⟩

/-- A layered velocity table with a single row, `[(1500 m/s, 100 m)]`. -/
def singleRowQ : RMatrix ℚ :=
  ⟨1, 2, fun _ j => if j = 0 then 1500 else 100⟩

/-- A velocity array with three rows but only one column. -/
def oneColQ : RMatrix ℚ := ⟨3, 1, fun _ _ => 5⟩

/-- A rational radargram with two samples, `travel_time = [1e6, 2e6]` µs. -/
def rgQ2 : Radargram ℚ :=
  ⟨2, 1, ⟨2, 1, fun _ _ => 0⟩, 1,
   fun i => if i = 0 then 10 ^ 6 else 2 * 10 ^ 6, fun _ => 1, fun _ => 1⟩

/-- A layered table whose depths are **not** monotonic:
`[(1, 100), (1, 0)]`. -/
def nonMonoQ : RMatrix ℚ :=
  ⟨2, 2, fun i j => if j = 0 then 1 else if i = 0 then 100 else 0⟩

/-- Radargram for the `OutOfRange` witness: two samples with
`travel_time = [2e6, 5e7]` µs, i.e. `twtt = [2, 50]` s. -/
def rgC6 : Radargram ℚ :=
  ⟨2, 1, ⟨2, 1, fun _ _ => 0⟩, 1,
   fun i => if i = 0 then 2 * 10 ^ 6 else 5 * 10 ^ 7, fun _ => 1, fun _ => 1⟩

/-- Layered table `[(-1, 100), (2, 0)]` driving `rgC6` outside the
interpolable range of the velocity model. -/
def tableC6 : RMatrix ℚ :=
  ⟨2, 2, fun i j => if i = 0 then (if j = 0 then -1 else 100) else
                    (if j = 0 then 2 else 0)⟩

/-- A `2 × 2` radargram holding a unit impulse at `(0, 0)` with
`dt = 1`, unit trace interval and `travel_time = [1, 2]` µs. -/
noncomputable def rg3 : Radargram ℝ :=
  ⟨2, 2, ⟨2, 2, fun i j => if i = 0 ∧ j = 0 then 1 else 0⟩, 1,
   fun i => (i : ℝ) + 1, fun _ => 1, fun _ => 1⟩

/-- A layered migration-velocity profile, constantly `9/5` m/s, for
`rg3`. -/
noncomputable def vmig3 : VMig ℝ := .layered 2 fun _ => 9 / 5

/-! ### General helper lemmas -/

theorem foldlRange_succ {β : Type} (f : β → ℕ → β) (b : β) (n : ℕ) :
    (List.range (n + 1)).foldl f b = f ((List.range n).foldl f b) n := by
  rw [List.range_succ, List.foldl_append, List.foldl_cons, List.foldl_nil]

theorem foldlRange_inv {β : Type} (P : β → Prop) (f : β → ℕ → β)
    (hf : ∀ b i, P b → P (f b i)) :
    ∀ (n : ℕ) (b : β), P b → P ((List.range n).foldl f b) := by
  intro n
  induction n with
  | zero => intro b hb; simpa using hb
  | succ k ih => intro b hb; rw [foldlRange_succ]; exact hf _ _ (ih b hb)

theorem npGradient_linear {K : Type} [Field K] (coords f g : ℕ → K) (a b : K)
    (n i : ℕ) :
    npGradient coords (fun u => a * f u + b * g u) n i =
      a * npGradient coords f n i + b * npGradient coords g n i := by
  unfold npGradient
  split_ifs <;> ring

theorem npGradient_const_shift {K : Type} [Field K] (coords f : ℕ → K) (c : K)
    (n i : ℕ) :
    npGradient coords (fun u => f u + c) n i = npGradient coords f n i := by
  unfold npGradient
  split_ifs <;> ring

theorem npGradient_eqZero {K : Type} [Field K] (coords f : ℕ → K) (n i : ℕ)
    (h : ∀ u, f u = 0) : npGradient coords f n i = 0 := by
  unfold npGradient
  simp only [h]
  split_ifs <;> ring

theorem matVec_eqZero {K : Type} [Semiring K] (A : ℕ → ℕ → K) (n : ℕ) (v : ℕ → K)
    (i : ℕ) (h : ∀ j, v j = 0) : matVec A n v i = 0 := by
  unfold matVec
  exact Finset.sum_eq_zero fun j _ => by rw [h j, mul_zero]

theorem dft_eqZero (n : ℕ) (f : ℕ → ℂ) (k : ℕ) (h : ∀ j, f j = 0) :
    dft n f k = 0 := by
  unfold dft
  exact Finset.sum_eq_zero fun j _ => by rw [h j, zero_mul]

theorem idft_eqZero (n : ℕ) (f : ℕ → ℂ) (k : ℕ) (h : ∀ j, f j = 0) :
    idft n f k = 0 := by
  unfold idft
  rw [Finset.sum_eq_zero fun j _ => by rw [h j, zero_mul]]
  exact zero_div _

theorem dft2_eqZero (nr nc : ℕ) (f : ℕ → ℕ → ℂ) (p q : ℕ)
    (h : ∀ i j, f i j = 0) : dft2 nr nc f p q = 0 := by
  unfold dft2
  exact Finset.sum_eq_zero fun i _ =>
    Finset.sum_eq_zero fun j _ => by rw [h i j, zero_mul]

theorem idft2_eqZero (nr nc : ℕ) (f : ℕ → ℕ → ℂ) (p q : ℕ)
    (h : ∀ i j, f i j = 0) : idft2 nr nc f p q = 0 := by
  unfold idft2
  rw [Finset.sum_eq_zero fun i (_ : i ∈ Finset.range nr) =>
    Finset.sum_eq_zero fun j (_ : j ∈ Finset.range nc) => by rw [h i j, zero_mul]]
  exact zero_div _

theorem sum2_linear (nr nc : ℕ) (f g e : ℕ → ℕ → ℂ) (a b : ℂ) :
    ∑ i in Finset.range nr, ∑ j in Finset.range nc, (a * f i j + b * g i j) * e i j =
      a * ∑ i in Finset.range nr, ∑ j in Finset.range nc, f i j * e i j +
        b * ∑ i in Finset.range nr, ∑ j in Finset.range nc, g i j * e i j := by
  rw [Finset.mul_sum, Finset.mul_sum, ← Finset.sum_add_distrib]
  refine Finset.sum_congr rfl fun i _ => ?_
  rw [Finset.mul_sum, Finset.mul_sum, ← Finset.sum_add_distrib]
  refine Finset.sum_congr rfl fun j _ => ?_
  ring

theorem dft2_linear (nr nc : ℕ) (f g : ℕ → ℕ → ℂ) (a b : ℂ) (p q : ℕ) :
    dft2 nr nc (fun i j => a * f i j + b * g i j) p q =
      a * dft2 nr nc f p q + b * dft2 nr nc g p q := by
  unfold dft2
  exact sum2_linear nr nc f g _ a b

theorem idft2_linear (nr nc : ℕ) (f g : ℕ → ℕ → ℂ) (a b : ℂ) (p q : ℕ) :
    idft2 nr nc (fun i j => a * f i j + b * g i j) p q =
      a * idft2 nr nc f p q + b * idft2 nr nc g p q := by
  unfold idft2
  rw [sum2_linear nr nc f g _ a b, add_div, mul_div_assoc, mul_div_assoc]

/-! ### Claim C1 -/

/-- C1 (code bug): the claim — and the source's own comments — expect the
stencil `Sp_Matr(N, -2, 1, 1)` to be the Dirichlet-bounded discrete
Laplacian, so that multiplying by the all-ones vector would give
`[1, 0, …, 0, N]`.  In fact the default arguments `k3 = k4 = 0, nx = 0`
make the last two `setdiag` calls overwrite the main diagonal with `0`,
so each interior row holds `[…, 1, 0, 1, …]` and the product at `N = 3`
is `[1, 2, 3]`, not `[1, 0, 3]`: the `diag` argument is dead whenever
`nx = 0`. -/
theorem c1_stencil_ones_eval :
    matVec (Sp_Matr 3 (-2 : ℤ) 1 1 0 0 0) 3 (fun _ => 1) 0 = 1 ∧
    matVec (Sp_Matr 3 (-2 : ℤ) 1 1 0 0 0) 3 (fun _ => 1) 1 = 2 ∧
    matVec (Sp_Matr 3 (-2 : ℤ) 1 1 0 0 0) 3 (fun _ => 1) 2 = 3 := by
  refine ⟨by decide, by decide, by decide⟩

/-! ### Claim C2 -/

/-- C2: whenever the sample matrix's shape disagrees with
`(snum, tnum)`, each of the three migration routines fails with
`shapeMismatch` (the source raises its `ValueError` before anything is
computed, so no partially migrated data can be produced — the error
value carries no radargram at all). -/
theorem c2_shape_mismatch (rg : Radargram ℝ) (velK velS : ℝ) (nf : Bool)
    (vel : VelocityInput ℝ)
    (h : rg.data.rows ≠ rg.snum ∨ rg.data.cols ≠ rg.tnum) :
    migrationKirchhoff rg velK nf = .error .shapeMismatch ∧
    migrationStolt rg velS = .error .shapeMismatch ∧
    migrationPhaseShift rg vel = .error .shapeMismatch := by
  have h' : rg.data.cols ≠ rg.tnum ∨ rg.data.rows ≠ rg.snum := h.symm
  exact ⟨by rw [migrationKirchhoff, if_pos h'],
         by rw [migrationStolt, if_pos h'],
         by rw [migrationPhaseShift, if_pos h']⟩

/-- Witness for C2 at a concrete radargram whose data is `1 × 1` while
`snum = tnum = 2`. -/
theorem c2_shape_mismatch_witness :
    (rgBadShape.data.rows ≠ rgBadShape.snum ∨ rgBadShape.data.cols ≠ rgBadShape.tnum) ∧
    migrationKirchhoff rgBadShape 1 false = .error .shapeMismatch ∧
    migrationStolt rgBadShape 1 = .error .shapeMismatch ∧
    migrationPhaseShift rgBadShape (.const 1) = .error .shapeMismatch := by
  refine ⟨Or.inl (by decide), ?_⟩
  exact c2_shape_mismatch rgBadShape 1 1 false (.const 1) (Or.inl (by decide))

/-! ### Claim C5 -/

/-- C5 counterexample: the single-row layered table `[(1500, 100)]` is
claimed to be rejected with the tagged error `InvalidVelocitySpec`; in
fact it falls through both dispatch branches and dies on the unassigned
`vmig` (an untagged `UnboundLocalError`), so the result is not the
claimed tagged failure. -/
theorem c5_single_row_counterexample :
    getVelocityProfile rgQ1 (.array singleRowQ) ≠ .error .invalidVelocitySpec := by
  rw [show getVelocityProfile rgQ1 (.array singleRowQ) =
        .error .uninitializedVmig from rfl]
  simp

/-- C5 (amended): no `InvalidVelocitySpec` failure exists in the code.
An array with fewer than two columns fails with the untagged
`IndexError` from reading column 1; an array with at least two columns
whose row count is 1 (in particular the single-row layered table) or
whose column count is neither 2 nor 3 falls through the dispatch and
fails with the untagged `UnboundLocalError` on `vmig`; and
non-monotonic depths are not rejected at all — the interpolator sorts
them — as the concrete non-monotonic table `[(1, 100), (1, 0)]`
(successfully interpolated) shows. -/
theorem c5_invalid_spec_untagged :
    (∀ {K : Type} [LinearOrderedField K] (rg : Radargram K) (m : RMatrix K),
        m.cols < 2 →
        getVelocityProfile rg (.array m) = .error .indexOutOfBounds) ∧
    (∀ {K : Type} [LinearOrderedField K] (rg : Radargram K) (m : RMatrix K),
        2 ≤ m.cols → (m.rows ≤ 1 ∨ (m.cols ≠ 2 ∧ m.cols ≠ 3)) →
        getVelocityProfile rg (.array m) = .error .uninitializedVmig) ∧
    (getVelocityProfile rgQ2 (.array nonMonoQ)).isOk = true := by
  refine ⟨?_, ?_, ?_⟩
  · intro K _ rg m h
    rw [getVelocityProfile, if_pos h]
  · intro K _ rg m h1 h2
    have hc : ¬ m.cols < 2 := by omega
    have hA : ¬ (1 < m.rows ∧ m.cols = 2) := by
      rintro ⟨hr, hc2⟩
      rcases h2 with h | ⟨hne, _⟩
      · omega
      · exact hne hc2
    have hB : ¬ (1 < m.rows ∧ m.cols = 3) := by
      rintro ⟨hr, hc3⟩
      rcases h2 with h | ⟨_, hne⟩
      · omega
      · exact hne hc3
    rw [getVelocityProfile, if_neg hc, if_neg hA, if_neg hB]
  · norm_num [getVelocityProfile, layeredBranch, interp1dEvalVec, interpLo, interpHi,
      layeredTofz, layeredPtsZT, layeredPairs, layeredBase, layeredZs, twttF,
      rgQ2, nonMonoQ, npMinR, npMaxR, pickMinBySnd, pickMaxBySnd, sortPairs,
      List.range_succ, List.insertionSort, List.orderedInsert, interpPtsVal,
      Nat.exists_lt_succ, Except.isOk, Except.toBool]

/-- Witness for C5 (amended), at a one-column table and at the
single-row two-column table. -/
theorem c5_invalid_spec_untagged_witness :
    (oneColQ.cols < 2 ∧
      getVelocityProfile rgQ1 (.array oneColQ) = .error .indexOutOfBounds) ∧
    (2 ≤ singleRowQ.cols ∧ singleRowQ.rows ≤ 1 ∧
      getVelocityProfile rgQ1 (.array singleRowQ) = .error .uninitializedVmig) := by
  refine ⟨⟨by decide, ?_⟩, ⟨by decide, by decide, ?_⟩⟩
  · exact c5_invalid_spec_untagged.1 rgQ1 oneColQ (by decide)
  · exact c5_invalid_spec_untagged.2.1 rgQ1 singleRowQ (by decide) (Or.inl (by decide))

/-! ### Claim C6 -/

/-- C6: in the layered branch (a table with more than one row and exactly
two columns), whenever the last two-way travel time exceeds the last
interpolated time `tofz[-1]` of the velocity model, the call fails with
`outOfRange`.  (Either the explicit
`raise ValueError('Two-way travel time array extends outside of
interpolation range')` fires, or — usually earlier — `zinterp(twtt)`
itself raises scipy's above-interpolation-range error; both are the
spec's `OutOfRange` condition.) -/
theorem c6_layered_out_of_range {K : Type} [LinearOrderedField K]
    (rg : Radargram K) (m : RMatrix K) (hrows : 1 < m.rows) (hcols : m.cols = 2)
    (h : twttF rg (rg.snum - 1) > layeredTofz rg m (rg.snum - 1)) :
    getVelocityProfile rg (.array m) = .error .outOfRange := by
  have hc : ¬ m.cols < 2 := by omega
  rw [getVelocityProfile, if_neg hc, if_pos ⟨hrows, hcols⟩, layeredBranch]
  cases h1 : interp1dEvalVec (layeredPtsZT rg m) rg.snum (layeredZs rg m) with
  | error e =>
    have he : e = .outOfRange := by
      rw [interp1dEvalVec] at h1
      split at h1
      · exact (Except.error.inj h1).symm
      · exact absurd h1 (by simp)
    rw [he]
  | ok tofz =>
    have htofz : ∀ i, tofz i = layeredTofz rg m i := by
      intro i
      rw [interp1dEvalVec] at h1
      split at h1
      · exact absurd h1 (by simp)
      · rw [← Except.ok.inj h1]
        rfl
    dsimp only
    cases h2 : interp1dEvalVec
        (sortPairs ((List.range rg.snum).map fun i => (tofz i, layeredZs rg m i)))
        rg.snum (twttF rg) with
    | error e =>
      have he : e = .outOfRange := by
        rw [interp1dEvalVec] at h2
        split at h2
        · exact (Except.error.inj h2).symm
        · exact absurd h2 (by simp)
      rw [he]
    | ok zoft =>
      have hcond : twttF rg (rg.snum - 1) > tofz (rg.snum - 1) := by
        rw [htofz]
        exact h
      dsimp only
      rw [if_pos hcond]

/-- Witness for C6: the table `[(-1, 100), (2, 0)]` on a two-sample
radargram with `twtt = [2, 50]` s has `tofz = [-1, -100]`, so
`twtt[-1] = 50 > tofz[-1] = -100` and the call fails with `outOfRange`. -/
theorem c6_layered_out_of_range_witness :
    (1 < tableC6.rows ∧ tableC6.cols = 2 ∧
      twttF rgC6 (rgC6.snum - 1) > layeredTofz rgC6 tableC6 (rgC6.snum - 1)) ∧
    getVelocityProfile rgC6 (.array tableC6) = .error .outOfRange := by
  have h3 : twttF rgC6 (rgC6.snum - 1) > layeredTofz rgC6 tableC6 (rgC6.snum - 1) := by
    norm_num [layeredTofz, layeredPtsZT, layeredPairs, layeredBase, layeredZs, twttF,
      rgC6, tableC6, npMinR, npMaxR, pickMinBySnd, pickMaxBySnd, sortPairs,
      List.range_succ, List.insertionSort, List.orderedInsert, interpPtsVal]
  exact ⟨⟨by decide, by decide, h3⟩,
         c6_layered_out_of_range rgC6 tableC6 (by decide) (by decide) h3⟩

/-! ### Claim C3 -/

theorem cosSubISin_ne_zero (φ : ℝ) :
    ((Real.cos φ : ℝ) : ℂ) - Complex.I * ((Real.sin φ : ℝ) : ℂ) ≠ 0 := by
  intro h
  have hre := congrArg Complex.re h
  have him := congrArg Complex.im h
  simp only [Complex.sub_re, Complex.mul_re, Complex.I_re, Complex.I_im,
    Complex.ofReal_re, Complex.ofReal_im, Complex.sub_im, Complex.mul_im,
    Complex.zero_re, Complex.zero_im, zero_mul, one_mul, mul_zero, zero_sub,
    sub_zero, zero_add, neg_eq_zero] at hre him
  have hone := Real.sin_sq_add_cos_sq φ
  rw [him, hre] at hone
  norm_num at hone

theorem rg3_nt : psNt rg3 = 2 := by decide

theorem rg3_ws1 : psWsF rg3 1 = -Real.pi := by
  rw [psWsF, fftfreqVal, rg3_nt]
  norm_num [fftfreqZ, rg3]
  ring

theorem rg3_kx1 : psKx rg3 1 = -Real.pi := by
  rw [psKx, fftfreqVal]
  norm_num [fftfreqZ, rg3, meanR, Finset.sum_range_succ]
  ring

theorem rg3_psW1 : psW rg3 (psWsF rg3) 1 = -Real.pi := by
  unfold psW
  rw [rg3_ws1, if_neg (neg_ne_zero.mpr Real.pi_ne_zero)]

theorem rg3_coss : psCoss rg3 vmig3 (psKx rg3) (psWsF rg3) 0 1 1 = 19 / 100 := by
  unfold psCoss
  rw [rg3_kx1, rg3_psW1]
  rw [show vbgOf vmig3 0 = 9 / 5 from rfl]
  rw [mul_div_assoc, div_self (neg_ne_zero.mpr Real.pi_ne_zero)]
  norm_num

theorem rg3_thresh : evanThresh rg3 0 = 1 / (4 * 10 ^ 24) := by
  norm_num [evanThresh, twttF, rg3]

theorem rg3_FK0_11 : psFK0 rg3 1 1 = 1 := by
  rw [psFK0, rg3_nt]
  norm_num [dft2, padData, rg3, Finset.sum_range_succ, Complex.exp_zero]

theorem rg3_sb1_FK11 :
    (psStateBefore rg3 vmig3 (psKx rg3) (psWsF rg3) (psNt rg3) (psFK0 rg3) 0 1).FK 1 1 = 1 := by
  show (psVarStep rg3 vmig3 (psKx rg3) (psWsF rg3) 0 0 (psVarState0 (psFK0 rg3))).FK 1 1 = 1
  dsimp only [psVarStep]
  rw [Function.update_noteq (by decide : (1 : ℕ) ≠ 0)]
  exact rg3_FK0_11

theorem rg3_mid_ne :
    psMidRow rg3 vmig3 (psKx rg3) (psWsF rg3) 0 1
      (psStateBefore rg3 vmig3 (psKx rg3) (psWsF rg3) (psNt rg3) (psFK0 rg3) 0 1) 1 ≠ 0 := by
  have hmid : psMidRow rg3 vmig3 (psKx rg3) (psWsF rg3) 0 1
      (psStateBefore rg3 vmig3 (psKx rg3) (psWsF rg3) (psNt rg3) (psFK0 rg3) 0 1) 1 =
      (psStateBefore rg3 vmig3 (psKx rg3) (psWsF rg3) (psNt rg3) (psFK0 rg3) 0 1).FK 1 1 *
        psCshift rg3 vmig3 (psKx rg3) (psWsF rg3) 0 1 1 := rfl
  rw [hmid, rg3_sb1_FK11, one_mul]
  exact cosSubISin_ne_zero (psPhase rg3 vmig3 (psKx rg3) (psWsF rg3) 0 1 1)

/-- C3 counterexample: in the layered run of the phase-shift engine on
`rg3` (unit impulse, `travel_time = [1, 2]` µs, `dt = 1`, `dx = 1`) with
profile velocity `9/5`, at step `itau = 0`, `iw = 1`, wavenumber
`ik = 1`, one has `coss = 19/100 ≤ (τ/τ_max)² = 1/4` — so the claim's
threshold (`τ` and `τ_max` both in seconds) demands the entry be zeroed —
yet the row stored into `FK[1]` (and accumulated into `TK[0]`) is nonzero
there, because the code's literal threshold is
`(τ/τ_max)² · 10⁻²⁴ ≈ 2.5·10⁻²⁵ < 19/100`. -/
theorem c3_evanescent_claim_counterexample :
    psCoss rg3 vmig3 (psKx rg3) (psWsF rg3) 0 1 1 ≤
      (twttF rg3 0 / twttF rg3 (rg3.snum - 1)) ^ 2 ∧
    (psStateBefore rg3 vmig3 (psKx rg3) (psWsF rg3) (psNt rg3) (psFK0 rg3) 0 2).FK 1 1 ≠ 0 := by
  constructor
  · rw [rg3_coss]
    norm_num [twttF, rg3]
  · have hstep : psStateBefore rg3 vmig3 (psKx rg3) (psWsF rg3) (psNt rg3) (psFK0 rg3) 0 2 =
        psVarStep rg3 vmig3 (psKx rg3) (psWsF rg3) 0 1
          (psStateBefore rg3 vmig3 (psKx rg3) (psWsF rg3) (psNt rg3) (psFK0 rg3) 0 1) := rfl
    rw [hstep]
    have hupd : (psVarStep rg3 vmig3 (psKx rg3) (psWsF rg3) 0 1
        (psStateBefore rg3 vmig3 (psKx rg3) (psWsF rg3) (psNt rg3) (psFK0 rg3) 0 1)).FK 1 1 =
        psZeroRow rg3 vmig3 (psKx rg3) (psWsF rg3) 0 1
          (psStateBefore rg3 vmig3 (psKx rg3) (psWsF rg3) (psNt rg3) (psFK0 rg3) 0 1) 1 := by
      dsimp only [psVarStep]
      rw [Function.update_same]
    rw [hupd, psZeroRow]
    have hnc : ¬ psCoss rg3 vmig3 (psKx rg3) (psWsF rg3) 0 1 1 ≤ evanThresh rg3 0 := by
      rw [rg3_coss, rg3_thresh]
      norm_num
    rw [if_neg hnc]
    exact rg3_mid_ne

/-- C3 (amended): at every step `(itau, iw)` of the layered/gridded
branch, the row written back into `FK[iw]` and accumulated into
`TK[itau]` vanishes at a wavenumber entry whose pre-zeroing value is
nonzero exactly when `coss ≤ (τ / travel_time[-1] / 10⁶)²` — the literal
threshold, in which `τ = travel_time[itau]/10⁶` is in seconds but the
last travel time is in microseconds and the extra `10⁶` sits inside the
square (equivalently, `((τ/τ_max) · 10⁻¹²)²` with both times in
seconds), not the claimed `(τ/τ_max)²`. -/
theorem c3_evanescent_zeroing_literal (rg : Radargram ℝ) (vmig : VMig ℝ)
    (kx ws : ℕ → ℝ) (itau iw ik : ℕ) (s : PSState)
    (h : psMidRow rg vmig kx ws itau iw s ik ≠ 0) :
    (psVarStep rg vmig kx ws itau iw s).FK iw ik = 0 ↔
      psCoss rg vmig kx ws itau iw ik ≤ evanThresh rg itau := by
  have hupd : (psVarStep rg vmig kx ws itau iw s).FK iw ik =
      psZeroRow rg vmig kx ws itau iw s ik := by
    dsimp only [psVarStep]
    rw [Function.update_same]
  rw [hupd, psZeroRow]
  by_cases hc : psCoss rg vmig kx ws itau iw ik ≤ evanThresh rg itau
  · simp [hc]
  · simp [hc, h]

/-- Witness for C3 (amended) at the concrete `rg3` run, step
`(0, 1)`, entry `1`: the pre-zeroing value is nonzero and neither side of
the equivalence holds (`coss = 19/100` exceeds the literal threshold, and
the stored entry is nonzero). -/
theorem c3_evanescent_zeroing_literal_witness :
    psMidRow rg3 vmig3 (psKx rg3) (psWsF rg3) 0 1
      (psStateBefore rg3 vmig3 (psKx rg3) (psWsF rg3) (psNt rg3) (psFK0 rg3) 0 1) 1 ≠ 0 ∧
    ((psVarStep rg3 vmig3 (psKx rg3) (psWsF rg3) 0 1
        (psStateBefore rg3 vmig3 (psKx rg3) (psWsF rg3) (psNt rg3) (psFK0 rg3) 0 1)).FK 1 1 = 0 ↔
      psCoss rg3 vmig3 (psKx rg3) (psWsF rg3) 0 1 1 ≤ evanThresh rg3 0) :=
  ⟨rg3_mid_ne,
   c3_evanescent_zeroing_literal rg3 vmig3 (psKx rg3) (psWsF rg3) 0 1 1
     (psStateBefore rg3 vmig3 (psKx rg3) (psWsF rg3) (psNt rg3) (psFK0 rg3) 0 1) rg3_mid_ne⟩

/-! ### Claim C4 -/

/-- C4 (code bug): in the gridded branch, the `FFX_last` handed to the
diffraction update at step `(itau, iw+1)` is the `FFX` computed at step
`(itau, iw)` — the same depth and the previous frequency — because the
source reassigns the single `FFX_last` variable on every inner
(frequency) iteration.  The claim (and `fourierFiniteDiff`'s own
docstring, "the last iteration (i.e. tau-1)") expects the value computed
at depth `itau - 1` for the same frequency. -/
theorem c4_ffd_arg_same_depth_prev_freq (rg : Radargram ℝ) (n mc : ℕ)
    (v : ℕ → ℕ → ℝ) (kx ws : ℕ → ℝ) (nws : ℕ) (FK : ℕ → ℕ → ℂ) (itau iw : ℕ) :
    psFFDArg rg (.gridded n mc v) kx ws nws FK itau (iw + 1) =
      psFFXAt rg (.gridded n mc v) kx ws nws FK itau iw := by
  unfold psFFDArg psFFXAt psStateBefore
  rw [foldlRange_succ]
  rfl

/-! ### Zero propagation (for C7) -/

theorem interp2at_eqZero (nx : ℕ) (xg : ℕ → ℝ) (ny : ℕ) (yg : ℕ → ℝ)
    (z : ℕ → ℕ → ℝ) (qx qy : ℝ) (h : ∀ a b, z a b = 0) :
    interp2at nx xg ny yg z qx qy = 0 := by
  dsimp only [interp2at]
  simp only [h]
  ring

theorem padData_zeroRg (S T : ℕ) (dt : ℝ) (tt tint dist : ℕ → ℝ) :
    ∀ i j, padData (zeroRg S T dt tt tint dist).data i j = 0 := by
  intro i j
  simp [padData, zeroRg]

theorem kirchhoffData_zeroInput (S T : ℕ) (dt : ℝ) (tt tint dist : ℕ → ℝ)
    (vel : ℝ) (nf : Bool) (ti xi : ℕ) :
    kirchhoffData (zeroRg S T dt tt tint dist) vel nf ti xi = 0 := by
  unfold kirchhoffData
  have hg : ∀ s k, kirchGradD (zeroRg S T dt tt tint dist) s k = 0 := fun s k =>
    npGradient_eqZero _ _ _ _ fun u => rfl
  have h1 : ∑ k in Finset.range (zeroRg S T dt tt tint dist).tnum,
      (if kirchTTmax (zeroRg S T dt tt tint dist) <
          2 * kirchRs (zeroRg S T dt tt tint dist) vel ti xi k / vel then 0
       else kirchGradD (zeroRg S T dt tt tint dist)
              (kirchDidx (zeroRg S T dt tt tint dist) vel ti xi k) k) *
        kirchCos (zeroRg S T dt tt tint dist) vel ti xi k / vel = 0 :=
    Finset.sum_eq_zero fun k _ => by rw [hg, ite_self, zero_mul, zero_div]
  have h2 : ∑ k in Finset.range (zeroRg S T dt tt tint dist).tnum,
      (if kirchTTmax (zeroRg S T dt tt tint dist) <
          2 * kirchRs (zeroRg S T dt tt tint dist) vel ti xi k / vel then 0
       else (zeroRg S T dt tt tint dist).data.entry
              (kirchDidx (zeroRg S T dt tt tint dist) vel ti xi k) k) *
        kirchCos (zeroRg S T dt tt tint dist) vel ti xi k /
          kirchRs (zeroRg S T dt tt tint dist) vel ti xi k ^ 2 = 0 :=
    Finset.sum_eq_zero fun k _ => by
      rw [show (zeroRg S T dt tt tint dist).data.entry
            (kirchDidx (zeroRg S T dt tt tint dist) vel ti xi k) k = 0 from rfl,
          ite_self, zero_mul, zero_div]
  rw [h1, h2]
  cases nf <;> norm_num

theorem stoltData_zeroInput (S T : ℕ) (dt : ℝ) (tt tint dist : ℕ → ℝ)
    (vel : ℝ) (i j : ℕ) :
    stoltData (zeroRg S T dt tt tint dist) vel i j = 0 := by
  have hFK : ∀ p q, stoltFK (zeroRg S T dt tt tint dist) p q = 0 := fun p q =>
    dft2_eqZero _ _ _ p q (padData_zeroRg S T dt tt tint dist)
  have hre : ∀ a b, (stoltFK (zeroRg S T dt tt tint dist) a b).re = 0 := fun a b => by
    rw [hFK, Complex.zero_re]
  have him : ∀ a b, (stoltFK (zeroRg S T dt tt tint dist) a b).im = 0 := fun a b => by
    rw [hFK, Complex.zero_im]
  have hKK : ∀ zj xi, stoltKK (zeroRg S T dt tt tint dist) vel zj xi = 0 := by
    intro zj xi
    dsimp only [stoltKK]
    rw [interp2at_eqZero _ _ _ _ _ _ _ hre, interp2at_eqZero _ _ _ _ _ _ _ him]
    simp
  have hS : ∀ zj xi, stoltScaled (zeroRg S T dt tt tint dist) vel zj xi = 0 := by
    intro zj xi
    unfold stoltScaled
    split_ifs
    · rfl
    · rw [hKK, zero_mul]
  unfold stoltData
  rw [idft2_eqZero _ _ _ _ _ hS, Complex.zero_re]

theorem psRetardRow_zero (rg : Radargram ℝ) (vmig : VMig ℝ) (kx ws : ℕ → ℝ)
    (itau iw : ℕ) (s : PSState) (hFK : ∀ i j, s.FK i j = 0) :
    ∀ ik, psRetardRow rg vmig kx ws itau iw s ik = 0 := by
  intro ik
  unfold psRetardRow
  rw [hFK, zero_mul]

theorem psZeroRow_zero_layered (rg : Radargram ℝ) (n : ℕ) (v : ℕ → ℝ)
    (kx ws : ℕ → ℝ) (itau iw : ℕ) (s : PSState) (hFK : ∀ i j, s.FK i j = 0) :
    ∀ ik, psZeroRow rg (.layered n v) kx ws itau iw s ik = 0 := by
  intro ik
  unfold psZeroRow
  split_ifs
  · rfl
  · exact psRetardRow_zero rg _ kx ws itau iw s hFK ik

theorem psVarStep_zero_layered (rg : Radargram ℝ) (n : ℕ) (v : ℕ → ℝ)
    (kx ws : ℕ → ℝ) (itau iw : ℕ) (s : PSState)
    (h : (∀ i j, s.FK i j = 0) ∧ (∀ t k, s.TK t k = 0) ∧ (∀ j, s.FFXlast j = 0)) :
    (∀ i j, (psVarStep rg (.layered n v) kx ws itau iw s).FK i j = 0) ∧
    (∀ t k, (psVarStep rg (.layered n v) kx ws itau iw s).TK t k = 0) ∧
    (∀ j, (psVarStep rg (.layered n v) kx ws itau iw s).FFXlast j = 0) := by
  obtain ⟨hFK, hTK, hFF⟩ := h
  refine ⟨?_, ?_, ?_⟩
  · intro i j
    dsimp only [psVarStep]
    rw [Function.update_apply]
    split_ifs
    · exact psZeroRow_zero_layered rg n v kx ws itau iw s hFK j
    · exact hFK i j
  · intro t k
    dsimp only [psVarStep]
    split_ifs
    · rw [hTK, psZeroRow_zero_layered rg n v kx ws itau iw s hFK, add_zero]
    · exact hTK t k
  · intro j
    exact hFF j

theorem psVarRun_zero_layered (rg : Radargram ℝ) (n : ℕ) (v : ℕ → ℝ)
    (kx ws : ℕ → ℝ) (nws ntau : ℕ) (FK : ℕ → ℕ → ℂ) (hFK : ∀ i j, FK i j = 0) :
    ∀ t k, (psVarRun rg (.layered n v) kx ws nws ntau (psVarState0 FK)).TK t k = 0 := by
  have hrun := foldlRange_inv
    (fun s : PSState =>
      (∀ i j, s.FK i j = 0) ∧ (∀ t k, s.TK t k = 0) ∧ (∀ j, s.FFXlast j = 0))
    (fun st itau => psVarInner rg (.layered n v) kx ws nws itau st)
    (fun st itau hst =>
      foldlRange_inv _ (fun s iw => psVarStep rg (.layered n v) kx ws itau iw s)
        (fun s iw hs => psVarStep_zero_layered rg n v kx ws itau iw s hs) nws st hst)
    ntau (psVarState0 FK) ⟨hFK, fun _ _ => rfl, fun _ => rfl⟩
  exact hrun.2.1

theorem psConstIwStep_zero (rg : Radargram ℝ) (v : ℝ) (kx ws : ℕ → ℝ)
    (FK : ℕ → ℕ → ℂ) (iw : ℕ) (TK : ℕ → ℕ → ℂ)
    (hFK : ∀ i j, FK i j = 0) (hTK : ∀ t k, TK t k = 0) :
    ∀ t k, psConstIwStep rg v kx ws FK iw TK t k = 0 := by
  intro t k
  unfold psConstIwStep
  have hinner := foldlRange_inv
    (fun s : (ℕ → ℂ) × (ℕ → ℕ → ℂ) =>
      (∀ ik, s.1 ik = 0) ∧ (∀ t k, s.2 t k = 0))
    (fun s itau =>
      ((fun ik => s.1 ik * psConstCp rg v kx ws iw ik),
       fun t ik =>
         if t = itau ∧ (v * kx ik / 2) ^ 2 < psW rg ws iw ^ 2 then
           s.2 t ik + s.1 ik * psConstCp rg v kx ws iw ik
         else s.2 t ik))
    (fun s itau hs => by
      refine ⟨fun ik => by simp [hs.1], fun t k => ?_⟩
      dsimp only
      split_ifs
      · simp [hs.1, hs.2]
      · exact hs.2 t k)
    rg.snum ((fun ik => FK iw ik), TK) ⟨fun ik => hFK iw ik, hTK⟩
  exact hinner.2 t k

theorem psConstRun_zero (rg : Radargram ℝ) (v : ℝ) (kx ws : ℕ → ℝ)
    (nws : ℕ) (FK : ℕ → ℕ → ℂ) (hFK : ∀ i j, FK i j = 0) :
    ∀ t k, psConstRun rg v kx ws nws FK t k = 0 := by
  exact foldlRange_inv (fun TK : ℕ → ℕ → ℂ => ∀ t k, TK t k = 0)
    (fun TK iw => psConstIwStep rg v kx ws FK iw TK)
    (fun TK iw hTK => psConstIwStep_zero rg v kx ws FK iw TK hFK hTK)
    nws (fun _ _ => 0) (fun _ _ => rfl)

/-! ### Claim C7 -/

theorem npMinR_attained {K : Type} [LinearOrder K] (f : ℕ → K) :
    ∀ n : ℕ, ∃ j, j < n + 1 ∧ f j = npMinR (n + 1) f := by
  intro n
  induction n with
  | zero =>
    refine ⟨0, by omega, ?_⟩
    simp [npMinR, List.range_succ]
  | succ m ih =>
    obtain ⟨j, hj, hje⟩ := ih
    have hstep : npMinR (m + 1 + 1) f = min (npMinR (m + 1) f) (f (m + 1)) := by
      unfold npMinR
      exact foldlRange_succ _ _ (m + 1)
    rcases min_choice (npMinR (m + 1) f) (f (m + 1)) with hc | hc
    · exact ⟨j, by omega, by rw [hstep, hc]; exact hje⟩
    · exact ⟨m + 1, by omega, by rw [hstep, hc]⟩

/-- C7 (code bug): the spec's "constant zero" law — an all-zero input
yields an all-zero output — holds for Kirchhoff, Stolt, and the
phase-shift engine under constant and layered velocity specifications
(first four conjuncts, over exact arithmetic), but the gridded v(x,z)
branch violates it.  There the code forms
`vfg = vmig[itau] - min(vmig[itau])`, whose minimum entry is exactly
zero — the last conjunct exhibits, in every gridded step, a trace index
at which the thin-lens divisor `vfg j` (with `vbg = vbgOf`, the code's
background velocity) vanishes — and then evaluates `2./vfg`, which is
`inf` in IEEE arithmetic, making `cos(phase2)` NaN on the very line the
source marks "TODO: I am pretty sure that this is wrong"; the NaN
spreads through the row FFT and the `TK` accumulation, so the all-zero
section migrates to NaN rather than zeros.  (Lean's total `2 / 0 = 0`
cannot carry the NaN payload, so no zero-propagation statement is made
for the gridded branch; see the note on `psFFXComputed`.) -/
theorem c7_zero_io_with_gridded_zero_divisor :
    (∀ (S T : ℕ) (dt : ℝ) (tt tint dist : ℕ → ℝ) (velK : ℝ) (nf : Bool) (i j : ℕ),
      (migrationKirchhoff (zeroRg S T dt tt tint dist) velK nf).map
        (fun r => (r.data.rows, r.data.cols, r.data.entry i j)) = .ok (S, T, 0)) ∧
    (∀ (S T : ℕ) (dt : ℝ) (tt tint dist : ℕ → ℝ) (velS : ℝ) (i j : ℕ),
      (migrationStolt (zeroRg S T dt tt tint dist) velS).map
        (fun r => (r.data.rows, r.data.cols, r.data.entry i j)) = .ok (S, T, 0)) ∧
    (∀ (S T : ℕ) (dt : ℝ) (tt tint dist : ℕ → ℝ) (v : ℝ) (i j : ℕ),
      (migrationPhaseShift (zeroRg S T dt tt tint dist) (.const v)).map
        (fun r => (r.data.rows, r.data.cols, r.data.entry i j)) = .ok (S, T, 0)) ∧
    (∀ (S T : ℕ) (dt : ℝ) (tt tint dist : ℕ → ℝ) (n : ℕ) (v : ℕ → ℝ) (t k : ℕ),
      (phaseShift (zeroRg S T dt tt tint dist) (.layered n v)
          (psKx (zeroRg S T dt tt tint dist)) (psWsF (zeroRg S T dt tt tint dist))
          (psNt (zeroRg S T dt tt tint dist)) (psFK0 (zeroRg S T dt tt tint dist))).map
        (fun TK => TK t k) =
      (phaseShift (zeroRg S T dt tt tint dist) (.layered n v)
          (psKx (zeroRg S T dt tt tint dist)) (psWsF (zeroRg S T dt tt tint dist))
          (psNt (zeroRg S T dt tt tint dist)) (psFK0 (zeroRg S T dt tt tint dist))).map
        (fun _ => 0)) ∧
    (∀ (n mc : ℕ) (v : ℕ → ℕ → ℝ) (itau : ℕ),
      ∃ j, j < mc + 1 ∧ v itau j - vbgOf (VMig.gridded n (mc + 1) v) itau = 0) := by
  refine ⟨?_, ?_, ?_, ?_, ?_⟩
  · intro S T dt tt tint dist velK nf i j
    have hguard : ¬((zeroRg S T dt tt tint dist).data.cols ≠ (zeroRg S T dt tt tint dist).tnum ∨
        (zeroRg S T dt tt tint dist).data.rows ≠ (zeroRg S T dt tt tint dist).snum) := by
      simp [zeroRg]
    unfold migrationKirchhoff
    rw [if_neg hguard]
    simp only [Except.map]
    rw [kirchhoffData_zeroInput]
    rfl
  · intro S T dt tt tint dist velS i j
    have hguard : ¬((zeroRg S T dt tt tint dist).data.cols ≠ (zeroRg S T dt tt tint dist).tnum ∨
        (zeroRg S T dt tt tint dist).data.rows ≠ (zeroRg S T dt tt tint dist).snum) := by
      simp [zeroRg]
    unfold migrationStolt
    rw [if_neg hguard]
    simp only [Except.map]
    rw [stoltData_zeroInput]
    rfl
  · intro S T dt tt tint dist v i j
    have hguard : ¬((zeroRg S T dt tt tint dist).data.cols ≠ (zeroRg S T dt tt tint dist).tnum ∨
        (zeroRg S T dt tt tint dist).data.rows ≠ (zeroRg S T dt tt tint dist).snum) := by
      simp [zeroRg]
    have hFK0 : ∀ p q, psFK0 (zeroRg S T dt tt tint dist) p q = 0 := fun p q =>
      dft2_eqZero _ _ _ p q (padData_zeroRg S T dt tt tint dist)
    unfold migrationPhaseShift
    rw [if_neg hguard]
    dsimp only [getVelocityProfile, phaseShift]
    simp only [Except.map]
    rw [idft_eqZero _ _ _ (fun q => by
        rw [psConstRun_zero _ _ _ _ _ _ hFK0, zero_div]), Complex.zero_re]
    rfl
  · intro S T dt tt tint dist n v t k
    have hFK0 : ∀ p q, psFK0 (zeroRg S T dt tt tint dist) p q = 0 := fun p q =>
      dft2_eqZero _ _ _ p q (padData_zeroRg S T dt tt tint dist)
    simp only [phaseShift]
    split_ifs
    · rfl
    · simp only [Except.map]
      rw [psVarRun_zero_layered _ _ _ _ _ _ _ _ hFK0, zero_div]
  · intro n mc v itau
    obtain ⟨j, hj, hje⟩ := npMinR_attained (v itau) mc
    refine ⟨j, hj, ?_⟩
    rw [show vbgOf (VMig.gridded n (mc + 1) v) itau = npMinR (mc + 1) (v itau) from rfl,
        ← hje, sub_self]

/-! ### Linearity (for C8 and C10) -/

theorem twttF_data (rg : Radargram ℝ) (M : RMatrix ℝ) :
    twttF {rg with data := M} = twttF rg := rfl

theorem kirchRs_data (rg : Radargram ℝ) (M : RMatrix ℝ) (vel : ℝ) :
    kirchRs {rg with data := M} vel = kirchRs rg vel := rfl

theorem kirchCos_data (rg : Radargram ℝ) (M : RMatrix ℝ) (vel : ℝ) :
    kirchCos {rg with data := M} vel = kirchCos rg vel := rfl

theorem kirchDidx_data (rg : Radargram ℝ) (M : RMatrix ℝ) (vel : ℝ) :
    kirchDidx {rg with data := M} vel = kirchDidx rg vel := rfl

theorem kirchTTmax_data (rg : Radargram ℝ) (M : RMatrix ℝ) :
    kirchTTmax {rg with data := M} = kirchTTmax rg := rfl

theorem stoltNt_data (rg : Radargram ℝ) (M : RMatrix ℝ) :
    stoltNt {rg with data := M} = stoltNt rg := rfl

theorem stoltNx_data (rg : Radargram ℝ) (M : RMatrix ℝ) :
    stoltNx {rg with data := M} = stoltNx rg := rfl

theorem stoltWs_data (rg : Radargram ℝ) (M : RMatrix ℝ) :
    stoltWs {rg with data := M} = stoltWs rg := rfl

theorem stoltKx_data (rg : Radargram ℝ) (M : RMatrix ℝ) :
    stoltKx {rg with data := M} = stoltKx rg := rfl

theorem kirchGradD_linear (rg : Radargram ℝ) (r c : ℕ) (X Y : ℕ → ℕ → ℝ)
    (a b : ℝ) (s k : ℕ) :
    kirchGradD {rg with data := ⟨r, c, fun p q => a * X p q + b * Y p q⟩} s k =
      a * kirchGradD {rg with data := ⟨r, c, X⟩} s k +
      b * kirchGradD {rg with data := ⟨r, c, Y⟩} s k :=
  npGradient_linear (twttF rg) (fun u => X u k) (fun u => Y u k) a b rg.snum s

theorem kirchhoffData_linear (rg : Radargram ℝ) (r c : ℕ) (X Y : ℕ → ℕ → ℝ)
    (a b vel : ℝ) (nf : Bool) (ti xi : ℕ) :
    kirchhoffData {rg with data := ⟨r, c, fun p q => a * X p q + b * Y p q⟩} vel nf ti xi =
      a * kirchhoffData {rg with data := ⟨r, c, X⟩} vel nf ti xi +
      b * kirchhoffData {rg with data := ⟨r, c, Y⟩} vel nf ti xi := by
  unfold kirchhoffData
  simp only [kirchRs_data, kirchCos_data, kirchDidx_data, kirchTTmax_data,
    kirchGradD_linear]
  have hfar :
      ∑ k in Finset.range rg.tnum,
        (if kirchTTmax rg < 2 * kirchRs rg vel ti xi k / vel then 0
         else a * kirchGradD {rg with data := ⟨r, c, X⟩} (kirchDidx rg vel ti xi k) k +
              b * kirchGradD {rg with data := ⟨r, c, Y⟩} (kirchDidx rg vel ti xi k) k) *
          kirchCos rg vel ti xi k / vel =
      a * ∑ k in Finset.range rg.tnum,
        (if kirchTTmax rg < 2 * kirchRs rg vel ti xi k / vel then 0
         else kirchGradD {rg with data := ⟨r, c, X⟩} (kirchDidx rg vel ti xi k) k) *
          kirchCos rg vel ti xi k / vel +
      b * ∑ k in Finset.range rg.tnum,
        (if kirchTTmax rg < 2 * kirchRs rg vel ti xi k / vel then 0
         else kirchGradD {rg with data := ⟨r, c, Y⟩} (kirchDidx rg vel ti xi k) k) *
          kirchCos rg vel ti xi k / vel := by
    rw [Finset.mul_sum, Finset.mul_sum, ← Finset.sum_add_distrib]
    refine Finset.sum_congr rfl fun k _ => ?_
    split_ifs <;> ring
  have hnear :
      ∑ k in Finset.range rg.tnum,
        (if kirchTTmax rg < 2 * kirchRs rg vel ti xi k / vel then 0
         else a * X (kirchDidx rg vel ti xi k) k + b * Y (kirchDidx rg vel ti xi k) k) *
          kirchCos rg vel ti xi k / kirchRs rg vel ti xi k ^ 2 =
      a * ∑ k in Finset.range rg.tnum,
        (if kirchTTmax rg < 2 * kirchRs rg vel ti xi k / vel then 0
         else X (kirchDidx rg vel ti xi k) k) *
          kirchCos rg vel ti xi k / kirchRs rg vel ti xi k ^ 2 +
      b * ∑ k in Finset.range rg.tnum,
        (if kirchTTmax rg < 2 * kirchRs rg vel ti xi k / vel then 0
         else Y (kirchDidx rg vel ti xi k) k) *
          kirchCos rg vel ti xi k / kirchRs rg vel ti xi k ^ 2 := by
    rw [Finset.mul_sum, Finset.mul_sum, ← Finset.sum_add_distrib]
    refine Finset.sum_congr rfl fun k _ => ?_
    split_ifs <;> ring
  rw [hfar, hnear]
  cases nf <;> simp only [Bool.false_eq_true, if_false, if_true] <;> ring

theorem padData_linear (r c : ℕ) (X Y : ℕ → ℕ → ℝ) (a b : ℝ) (i j : ℕ) :
    padData ⟨r, c, fun p q => a * X p q + b * Y p q⟩ i j =
      (a : ℂ) * padData ⟨r, c, X⟩ i j + (b : ℂ) * padData ⟨r, c, Y⟩ i j := by
  unfold padData
  dsimp only
  split_ifs
  · push_cast
    ring
  · ring

theorem stoltFK_linear (rg : Radargram ℝ) (r c : ℕ) (X Y : ℕ → ℕ → ℝ)
    (a b : ℝ) (p q : ℕ) :
    stoltFK {rg with data := ⟨r, c, fun u w => a * X u w + b * Y u w⟩} p q =
      (a : ℂ) * stoltFK {rg with data := ⟨r, c, X⟩} p q +
      (b : ℂ) * stoltFK {rg with data := ⟨r, c, Y⟩} p q := by
  unfold stoltFK
  simp only [stoltNt_data, stoltNx_data]
  rw [show (padData ⟨r, c, fun u w => a * X u w + b * Y u w⟩) =
        fun i j => (a : ℂ) * padData ⟨r, c, X⟩ i j + (b : ℂ) * padData ⟨r, c, Y⟩ i j from
      funext fun i => funext fun j => padData_linear r c X Y a b i j]
  exact dft2_linear _ _ _ _ _ _ _ _

theorem interp2at_linear (nx : ℕ) (xg : ℕ → ℝ) (ny : ℕ) (yg : ℕ → ℝ)
    (z1 z2 : ℕ → ℕ → ℝ) (a b qx qy : ℝ) :
    interp2at nx xg ny yg (fun p q => a * z1 p q + b * z2 p q) qx qy =
      a * interp2at nx xg ny yg z1 qx qy + b * interp2at nx xg ny yg z2 qx qy := by
  dsimp only [interp2at]
  ring

theorem stoltKK_linear (rg : Radargram ℝ) (r c : ℕ) (X Y : ℕ → ℕ → ℝ)
    (a b vel : ℝ) (zj xi : ℕ) :
    stoltKK {rg with data := ⟨r, c, fun u w => a * X u w + b * Y u w⟩} vel zj xi =
      (a : ℂ) * stoltKK {rg with data := ⟨r, c, X⟩} vel zj xi +
      (b : ℂ) * stoltKK {rg with data := ⟨r, c, Y⟩} vel zj xi := by
  unfold stoltKK
  simp only [stoltNt_data, stoltNx_data, stoltWs_data, stoltKx_data]
  have hre : (fun p q =>
      (stoltFK {rg with data := ⟨r, c, fun u w => a * X u w + b * Y u w⟩} p q).re) =
      fun p q => a * (stoltFK {rg with data := ⟨r, c, X⟩} p q).re +
        b * (stoltFK {rg with data := ⟨r, c, Y⟩} p q).re := by
    funext p q
    rw [stoltFK_linear rg r c X Y a b p q]
    simp [Complex.add_re, Complex.re_ofReal_mul]
  have him : (fun p q =>
      (stoltFK {rg with data := ⟨r, c, fun u w => a * X u w + b * Y u w⟩} p q).im) =
      fun p q => a * (stoltFK {rg with data := ⟨r, c, X⟩} p q).im +
        b * (stoltFK {rg with data := ⟨r, c, Y⟩} p q).im := by
    funext p q
    rw [stoltFK_linear rg r c X Y a b p q]
    simp [Complex.add_im, Complex.im_ofReal_mul]
  rw [hre, him, interp2at_linear, interp2at_linear]
  push_cast
  ring

theorem stoltScaled_linear (rg : Radargram ℝ) (r c : ℕ) (X Y : ℕ → ℕ → ℝ)
    (a b vel : ℝ) (zj xi : ℕ) :
    stoltScaled {rg with data := ⟨r, c, fun u w => a * X u w + b * Y u w⟩} vel zj xi =
      (a : ℂ) * stoltScaled {rg with data := ⟨r, c, X⟩} vel zj xi +
      (b : ℂ) * stoltScaled {rg with data := ⟨r, c, Y⟩} vel zj xi := by
  unfold stoltScaled
  simp only [stoltWs_data, stoltKx_data]
  split_ifs
  · ring
  · rw [stoltKK_linear rg r c X Y a b vel zj xi]
    ring

theorem stoltData_linear (rg : Radargram ℝ) (r c : ℕ) (X Y : ℕ → ℕ → ℝ)
    (a b vel : ℝ) (i j : ℕ) :
    stoltData {rg with data := ⟨r, c, fun u w => a * X u w + b * Y u w⟩} vel i j =
      a * stoltData {rg with data := ⟨r, c, X⟩} vel i j +
      b * stoltData {rg with data := ⟨r, c, Y⟩} vel i j := by
  unfold stoltData
  simp only [stoltNt_data, stoltNx_data]
  rw [show stoltScaled {rg with data := ⟨r, c, fun u w => a * X u w + b * Y u w⟩} vel =
        fun zj xi => (a : ℂ) * stoltScaled {rg with data := ⟨r, c, X⟩} vel zj xi +
          (b : ℂ) * stoltScaled {rg with data := ⟨r, c, Y⟩} vel zj xi from
      funext fun zj => funext fun xi => stoltScaled_linear rg r c X Y a b vel zj xi]
  rw [idft2_linear]
  simp [Complex.add_re, Complex.re_ofReal_mul]

/-! ### Claim C8 -/

/-- C8: Kirchhoff and Stolt migration are linear in the input data: with
the geometry (all non-data fields), the velocity and the near-field flag
fixed, migrating `a·X + b·Y` gives `a` times the migration of `X` plus
`b` times the migration of `Y`, pointwise and over exact real
arithmetic. -/
theorem c8_linearity (rg : Radargram ℝ) (X Y : ℕ → ℕ → ℝ) (a b velK velS : ℝ)
    (nf : Bool) (ti xi : ℕ) :
    kirchhoffData
        {rg with data := ⟨rg.data.rows, rg.data.cols, fun p q => a * X p q + b * Y p q⟩}
        velK nf ti xi =
      a * kirchhoffData {rg with data := ⟨rg.data.rows, rg.data.cols, X⟩} velK nf ti xi +
      b * kirchhoffData {rg with data := ⟨rg.data.rows, rg.data.cols, Y⟩} velK nf ti xi ∧
    stoltData
        {rg with data := ⟨rg.data.rows, rg.data.cols, fun p q => a * X p q + b * Y p q⟩}
        velS ti xi =
      a * stoltData {rg with data := ⟨rg.data.rows, rg.data.cols, X⟩} velS ti xi +
      b * stoltData {rg with data := ⟨rg.data.rows, rg.data.cols, Y⟩} velS ti xi :=
  ⟨kirchhoffData_linear rg rg.data.rows rg.data.cols X Y a b velK nf ti xi,
   stoltData_linear rg rg.data.rows rg.data.cols X Y a b velS ti xi⟩

/-! ### Claim C9 -/

/-- C9: every successful migration call returns the very same radargram
with only the data matrix replaced: overwriting the output's data with
the input's data gives back the input identically, so `dt`,
`travel_time`, `trace_int`, `dist`, `snum` and `tnum` are all unchanged. -/
theorem c9_frame_preservation (rg : Radargram ℝ) (velK velS : ℝ) (nf : Bool)
    (vel : VelocityInput ℝ) :
    (migrationKirchhoff rg velK nf).map (fun out => {out with data := rg.data}) =
      (migrationKirchhoff rg velK nf).map (fun _ => rg) ∧
    (migrationStolt rg velS).map (fun out => {out with data := rg.data}) =
      (migrationStolt rg velS).map (fun _ => rg) ∧
    (migrationPhaseShift rg vel).map (fun out => {out with data := rg.data}) =
      (migrationPhaseShift rg vel).map (fun _ => rg) := by
  refine ⟨?_, ?_, ?_⟩
  · unfold migrationKirchhoff
    split_ifs <;> rfl
  · unfold migrationStolt
    split_ifs <;> rfl
  · unfold migrationPhaseShift
    split_ifs
    · rfl
    · cases getVelocityProfile rg vel with
      | error e => rfl
      | ok vmig =>
        dsimp only
        cases phaseShift rg vmig (psKx rg) (psWsF rg) (psNt rg) (psFK0 rg) with
        | error e => rfl
        | ok TK => rfl

/-! ### Claim C10 -/

/-- C10: with the near-field term disabled, Kirchhoff migration is
invariant under adding a constant to every data sample: the far-field
term reads the data only through its centred time derivative
(`np.gradient` along the time axis), which annihilates constants. -/
theorem c10_kirchhoff_const_shift (rg : Radargram ℝ) (c vel : ℝ) (i j : ℕ) :
    (migrationKirchhoff
        {rg with data := ⟨rg.data.rows, rg.data.cols, fun p q => rg.data.entry p q + c⟩}
        vel false).map (fun out => out.data.entry i j) =
      (migrationKirchhoff rg vel false).map (fun out => out.data.entry i j) := by
  have hdata : kirchhoffData
      {rg with data := ⟨rg.data.rows, rg.data.cols, fun p q => rg.data.entry p q + c⟩}
      vel false i j = kirchhoffData rg vel false i j := by
    unfold kirchhoffData
    simp only [kirchRs_data, kirchCos_data, kirchDidx_data, kirchTTmax_data]
    have hg : ∀ s k, kirchGradD
        {rg with data := ⟨rg.data.rows, rg.data.cols, fun p q => rg.data.entry p q + c⟩}
        s k = kirchGradD rg s k := fun s k =>
      npGradient_const_shift (twttF rg) (fun u => rg.data.entry u k) c rg.snum s
    simp only [hg]
    rfl
  unfold migrationKirchhoff
  dsimp only
  split_ifs
  · rfl
  · simp only [Except.map]
    rw [hdata]
